import Mathlib

/-!
Walls of Doom: the frame simulation and its random number generator.

A shallow embedding of `random.c` and `physics.c`.

Conventions of the embedding.

* `uint64_t` values are natural numbers below `2 ^ 64`; every operation that can
  leave that range is reduced modulo `2 ^ 64` where the C code does it.
* The arithmetic of `random_integer` on `int` is reduced to 32 bits explicitly
  (`wrap_int`), because the width of that computation is what the function's own
  comment is about.
* The coordinates, speeds, scores and counters of `physics.c` are unbounded
  integers: the statements about them are about runs in which no `int` leaves its
  range.
* An operation the C standard leaves undefined (division by zero, a write outside
  an array) and a loop that is still running when its fuel is used up both give
  `none`.
* Constants and helpers that `physics.c` takes from headers that are not part of
  the sources (`constants.h`, `perk.h`, ...) are fields of `Constants`.
-/

namespace WallsOfDoom

/-! ## random.c -/

/-- The two 64-bit words `s[0]`, `s[1]` of the generator. -/
structure RandomState where
  s0 : Nat
  s1 : Nat
deriving DecidableEq, Repr

/-- The value `s` is initialised with in `random.c`. -/
def initial_state : RandomState :=
  { s0 := 0x7c87b3fced63be76, s1 := 0x4ec3c3191d40a751 }

/-- The modulus of `uint64_t` arithmetic. -/
def UINT64_MODULUS : Nat := 2 ^ 64

/-- The function `rotl`: `(x << k) | (x >> (64 - k))` on `uint64_t`. -/
def rotl (x : Nat) (k : Nat) : Nat :=
  ((x <<< k) % UINT64_MODULUS) ||| (x >>> (64 - k))

/-- The function `next`: the output `s0 + s1` and the updated state. -/
def next (s : RandomState) : Nat × RandomState :=
  let s0 := s.s0
  let s1 := s.s1
  let result := (s0 + s1) % UINT64_MODULUS
  let s1 := s1 ^^^ s0
  (result,
    { s0 := (rotl s0 55 ^^^ s1) ^^^ ((s1 <<< 14) % UINT64_MODULUS),
      s1 := rotl s1 36 })

/-- The loop of `find_next_power_of_two`, on `(number, result)`. The first argument
counts the iterations still allowed; a `uint64_t` is zero after at most 64 right
shifts, so 64 of them are always enough (`find_next_power_of_two_loop_enough`). -/
def find_next_power_of_two_loop : Nat → Nat → Nat → Nat
  | 0, _, result => result
  | n + 1, number, result =>
    if number ≠ 0 then
      find_next_power_of_two_loop n (number >>> 1) ((result <<< 1) % UINT64_MODULUS)
    else result

/-- The function `find_next_power_of_two`. -/
def find_next_power_of_two (number : Nat) : Nat :=
  find_next_power_of_two_loop 64 number 1

/-- Reduction of an integer to the range of a 32-bit `int` (two's complement). -/
def wrap_int (v : Int) : Int := (v + 2 ^ 31) % 2 ^ 32 - 2 ^ 31

/-- Conversion of an `int` to `uint64_t`. -/
def to_uint64 (v : Int) : Nat := (v % 2 ^ 64).toNat

/-- The local `range` of `random_integer`: `maximum - minimum + 1` is evaluated in
`int` and only the result is converted to `uint64_t`. -/
def random_integer_range (minimum maximum : Int) : Nat :=
  to_uint64 (wrap_int (wrap_int (maximum - minimum) + 1))

/-- The `do ... while (value >= range)` loop of `random_integer`. It gives `none`
when `next_power_of_two` is zero (a remainder by zero) and when the loop has not
left after `fuel` draws. -/
def random_integer_loop (range next_power_of_two : Nat) :
    Nat → RandomState → Option (Nat × RandomState)
  | 0, _ => none
  | fuel + 1, s =>
    if next_power_of_two = 0 then none
    else
      let value := (next s).1 % next_power_of_two
      if value ≥ range then
        random_integer_loop range next_power_of_two fuel (next s).2
      else some (value, (next s).2)

/-- The function `random_integer`, with the generator state passed explicitly. -/
def random_integer (fuel : Nat) (s : RandomState) (minimum maximum : Int) :
    Option (Int × RandomState) :=
  let range := random_integer_range minimum maximum
  if maximum < minimum then some (0, s)
  else
    let next_power_of_two := find_next_power_of_two range
    match random_integer_loop range next_power_of_two fuel s with
    | none => none
    | some (value, s') =>
      some (wrap_int (((to_uint64 minimum + value) % UINT64_MODULUS : Nat) : Int), s')

/-- The least value of a 32-bit `int`. -/
def INT_MIN : Int := -2147483648

/-- The greatest value of a 32-bit `int`. -/
def INT_MAX : Int := 2147483647

/-! ## The data of physics.c -/

/-- Modelled from the spec: the type `Perk` is declared in a header that is not part
of the sources. The spec lists the tags none, bonus-extra-points, bonus-extra-life,
power-levitation, power-super-jump, power-low-gravity, power-invincibility and
power-time-stop; they are the ones `physics.c` names. -/
inductive Perk where
  | PERK_NONE
  | PERK_POWER_INVINCIBILITY
  | PERK_POWER_LEVITATION
  | PERK_POWER_LOW_GRAVITY
  | PERK_POWER_SUPER_JUMP
  | PERK_POWER_TIME_STOP
  | PERK_BONUS_EXTRA_POINTS
  | PERK_BONUS_EXTRA_LIFE
deriving DecidableEq, Repr

open Perk

/-- Modelled from the spec: `is_bonus_perk` is not part of the sources. The spec
divides the perks into bonuses (extra points, extra life) and powers. -/
def is_bonus_perk (perk : Perk) : Bool :=
  match perk with
  | PERK_BONUS_EXTRA_POINTS => true
  | PERK_BONUS_EXTRA_LIFE => true
  | _ => false

/-- Modelled from the spec: the type `Command` is declared in a header that is not
part of the sources; the spec gives the closed set none, left, right, jump. -/
inductive Command where
  | COMMAND_NONE
  | COMMAND_LEFT
  | COMMAND_RIGHT
  | COMMAND_JUMP
deriving DecidableEq, Repr

open Command

/-- Modelled from the spec: `normalize` is not part of the sources. `move_player`
describes it ("ignore magnitude, take just -1, 0, or 1") and the spec calls it the
sign of the speed. -/
def normalize (value : Int) : Int :=
  if value < 0 then -1 else if value = 0 then 0 else 1

/-- The struct `Player`, with the two perk fields `physics.c` uses. -/
structure Player where
  x : Int
  y : Int
  speed_x : Int
  speed_y : Int
  physics : Int
  can_double_jump : Int
  remaining_jump_height : Int
  lives : Int
  score : Int
  perk : Perk
  perk_end_frame : Nat
deriving DecidableEq, Repr

/-- The struct `Platform`, with the fields `physics.c` uses. -/
structure Platform where
  x : Int
  y : Int
  width : Int
  speed_x : Int
  speed_y : Int
deriving DecidableEq, Repr

/-- The struct `BoundingBox`. -/
structure BoundingBox where
  min_x : Int
  min_y : Int
  max_x : Int
  max_y : Int
deriving DecidableEq, Repr

/-- The struct `Game`, with the fields `physics.c` uses; `platform_count` is the
length of `platforms`. -/
structure Game where
  player : Player
  platforms : List Platform
  box : BoundingBox
  frame : Nat
  played_frames : Nat
  perk : Perk
  perk_x : Int
  perk_y : Int
  perk_end_frame : Nat
  message : String
deriving DecidableEq, Repr

/-- The constants and helpers `physics.c` takes from headers that are not part of
the sources. -/
structure Constants where
  FPS : Nat
  LINES : Int
  PLAYER_JUMPING_HEIGHT : Int
  PLAYER_RUNNING_SPEED : Int
  PLAYER_JUMPING_SPEED : Int
  PLAYER_FALLING_SPEED : Int
  PERK_SCREEN_DURATION_IN_FRAMES : Nat
  PERK_INTERVAL_IN_FRAMES : Nat
  PERK_PLAYER_DURATION_IN_FRAMES : Nat
  get_perk_name : Perk → String
  get_random_perk : Nat → RandomState → Option (Perk × RandomState)

/-- Assignment through the pointer `game->platforms + i`. -/
def set_platform (game : Game) (i : Nat) (platform : Platform) : Game :=
  { game with platforms := game.platforms.set i platform }

/-! ## Spatial primitives -/

/-- The function `bounding_box_equals`. -/
def bounding_box_equals (a b : BoundingBox) : Bool :=
  a.min_x == b.min_x && a.min_y == b.min_y && a.max_x == b.max_x && a.max_y == b.max_y

/-- The function `is_within_platform`. -/
def is_within_platform (x y : Int) (platform : Platform) : Bool :=
  let p_min_x := platform.x
  let p_max_x := platform.x + platform.width - 1
  let p_y := platform.y
  decide (y = p_y) && decide (x ≥ p_min_x) && decide (x ≤ p_max_x)

/-- The function `is_over_platform`. -/
def is_over_platform (x y : Int) (platform : Platform) : Bool :=
  is_within_platform x (y + 1) platform

/-- The function `is_out_of_bounding_box`. -/
def is_out_of_bounding_box (platform : Platform) (box : BoundingBox) : Nat :=
  let min_x := platform.x
  let max_x := platform.x + platform.width
  if max_x < box.min_x ∨ min_x > box.max_x then 1
  else if platform.y < box.min_y ∨ platform.y > box.max_y then 2
  else 0

/-! ## Moving the player -/

/-- The function `is_valid_move`. -/
def is_valid_move (game : Game) (x y : Int) : Bool :=
  if game.player.perk = PERK_POWER_INVINCIBILITY ∧
      ((game.box.min_x - 1 = x ∨ game.box.max_x + 1 = x) ∨
        (game.box.min_y - 1 = y ∨ game.box.max_y + 1 = y)) then false
  else if game.player.x ≠ x ∨ game.player.y ≠ y + 1 then
    !(game.platforms.any (fun platform => is_within_platform x y platform))
  else true

/-- The function `move_player`. -/
def move_player (game : Game) (x y : Int) : Game :=
  let x := normalize x
  let y := normalize y
  if is_valid_move game (game.player.x + x) (game.player.y + y) then
    { game with player := { game.player with x := game.player.x + x, y := game.player.y + y } }
  else game

/-- The function `shove_player`. -/
def shove_player (game : Game) (x y : Int) : Game :=
  if game.player.physics ≠ 0 then
    let game := if game.player.perk ≠ PERK_POWER_LEVITATION then move_player game x 0 else game
    move_player game 0 y
  else game

/-! ## Platform motion -/

/-- The value stored in `multiple` by `should_move_at_current_frame`:
`FPS / (double)abs(speed) + 0.5` converted to `unsigned long`, that is the floor of
`FPS / |speed| + 1 / 2`. The quotient is written with integers, which is exact
(`frame_multiple_eq_floor`); the double arithmetic gives the same integer as long as
`FPS` and `|speed|` are below `2 ^ 24`. -/
def frame_multiple (FPS : Nat) (speed : Int) : Nat :=
  (2 * FPS + speed.natAbs) / (2 * speed.natAbs)

/-- The function `should_move_at_current_frame`; `none` is the remainder by a zero
`multiple`. -/
def should_move_at_current_frame (c : Constants) (game : Game) (speed : Int) : Option Bool :=
  if speed = 0 ∨ game.frame = 0 then some false
  else
    let multiple := frame_multiple c.FPS speed
    if multiple = 0 then none else some (game.frame % multiple == 0)

/-- The function `move_platform_horizontally`, for the platform `game->platforms + i`. -/
def move_platform_horizontally (c : Constants) (game : Game) (i : Nat) : Option Game :=
  match game.platforms[i]? with
  | none => none
  | some platform =>
    match should_move_at_current_frame c game platform.speed_x with
    | none => none
    | some false => some game
    | some true =>
      let shoved :=
        if game.player.y = platform.y then
          if normalize platform.speed_x = 1 then
            if game.player.x = platform.x + platform.width then shove_player game 1 0 else game
          else if normalize platform.speed_x = -1 then
            if game.player.x = platform.x - 1 then shove_player game (-1) 0 else game
          else game
        else if is_over_platform game.player.x game.player.y platform then
          shove_player game (normalize platform.speed_x) 0
        else game
      some (set_platform shoved i { platform with x := platform.x + normalize platform.speed_x })

/-- The function `move_platform_vertically`, for the platform `game->platforms + i`. -/
def move_platform_vertically (c : Constants) (game : Game) (i : Nat) : Option Game :=
  match game.platforms[i]? with
  | none => none
  | some platform =>
    match should_move_at_current_frame c game platform.speed_y with
    | none => none
    | some false => some game
    | some true =>
      let shoved :=
        if game.player.x ≥ platform.x ∧ game.player.x < platform.x + platform.width then
          if normalize platform.speed_y = 1 then game
          else if normalize platform.speed_y = -1 then
            if game.player.y = platform.y - 1 then shove_player game 0 (-1) else game
          else game
        else game
      some (set_platform shoved i { platform with y := platform.y + normalize platform.speed_y })

/-- The first loop of `reposition`: `occupied[platforms[i].y - box->min_y] = 1` for
every platform. The table has `LINES - 2` entries; a write outside it gives `none`. -/
def build_occupied (min_y : Int) : List Platform → List Bool → Option (List Bool)
  | [], occupied => some occupied
  | platform :: rest, occupied =>
    let index := platform.y - min_y
    if 0 ≤ index ∧ index < (occupied.length : Int) then
      build_occupied min_y rest (occupied.set index.toNat true)
    else none

/-- The indices `game->platforms[i].y - box->min_y` at which the first loop of
`reposition` writes the table `occupied`, in the order of the loop. -/
def occupied_write_indices (game : Game) : List Int :=
  game.platforms.map (fun platform => platform.y - game.box.min_y)

/-- The second loop of `reposition`, with the number of iterations still to run
(at first `LINES - 2`) and the current `line`; `size` is `LINES - 2`. -/
def probe_line (occupied : List Bool) (size box_height : Int) : Nat → Int → Int
  | 0, line => line
  | n + 1, line =>
    if line ≥ 0 ∧ line < size ∧ occupied.getD line.toNat false = false then line
    else probe_line occupied size box_height n (Int.tmod (line + 1) box_height)

/-- The function `reposition`, for the platform `game->platforms + i`. -/
def reposition (c : Constants) (fuel : Nat) (s : RandomState) (game : Game) (i : Nat) :
    Option (RandomState × Game) :=
  match game.platforms[i]? with
  | none => none
  | some platform =>
    let box := game.box
    let box_height := box.max_y - box.min_y + 1
    match random_integer fuel s box.min_y box.max_y with
    | none => none
    | some (random_line, s) =>
      if box_height = 0 then none
      else
        let line := Int.tmod random_line box_height
        match build_occupied box.min_y game.platforms
            (List.replicate (c.LINES - 2).toNat false) with
        | none => none
        | some occupied =>
          let line := probe_line occupied (c.LINES - 2) box_height (c.LINES - 2).toNat line
          if platform.x > box.max_x then
            some (s, set_platform game i
              { platform with x := box.min_x - platform.width + 1, y := line + box.min_y })
          else if platform.x + platform.width < box.min_x then
            some (s, set_platform game i
              { platform with x := box.max_x, y := line + box.min_y })
          else if platform.y < box.min_y then
            match random_integer fuel s box.min_x (box.max_x - platform.width) with
            | none => none
            | some (x, s) =>
              match move_platform_vertically c
                  (set_platform game i { platform with x := x, y := box.max_y + 1 }) i with
              | none => none
              | some game => some (s, game)
          else some (s, game)

/-- The function `update_platform`, for the platform `game->platforms + i`. -/
def update_platform (c : Constants) (fuel : Nat) (s : RandomState) (game : Game) (i : Nat) :
    Option (RandomState × Game) :=
  match move_platform_horizontally c game i with
  | none => none
  | some game =>
    match move_platform_vertically c game i with
    | none => none
    | some game =>
      match game.platforms[i]? with
      | none => none
      | some platform =>
        if is_out_of_bounding_box platform game.box ≠ 0 then reposition c fuel s game i
        else some (s, game)

/-- The loop of `update_platforms`: platforms `i`, `i + 1`, ... in array order, `n`
of them. -/
def update_platforms_loop (c : Constants) (fuel : Nat) :
    Nat → Nat → RandomState → Game → Option (RandomState × Game)
  | 0, _, s, game => some (s, game)
  | n + 1, i, s, game =>
    match update_platform c fuel s game i with
    | none => none
    | some (s, game) => update_platforms_loop c fuel n (i + 1) s game

/-- The function `update_platforms`. -/
def update_platforms (c : Constants) (fuel : Nat) (s : RandomState) (game : Game) :
    Option (RandomState × Game) :=
  if game.player.perk ≠ PERK_POWER_TIME_STOP then
    update_platforms_loop c fuel game.platforms.length 0 s game
  else some (s, game)

/-! ## Perks and the player -/

/-- The function `is_falling`. -/
def is_falling (player : Player) (platforms : List Platform) : Bool :=
  if player.physics = 0 ∨ player.perk = PERK_POWER_LEVITATION then false
  else
    !(platforms.any (fun platform =>
      decide (player.y = platform.y - 1) &&
        (decide (player.x ≥ platform.x) && decide (player.x < platform.x + platform.width))))

/-- The function `conceive_bonus`; the log entry of its last branch is not part of
the state. -/
def conceive_bonus (player : Player) (perk : Perk) : Player :=
  if is_bonus_perk perk then
    if perk = PERK_BONUS_EXTRA_POINTS then { player with score := player.score + 60 }
    else if perk = PERK_BONUS_EXTRA_LIFE then { player with lives := player.lives + 1 }
    else player
  else player

/-- The function `update_perk`; the right-hand side of its second comparison is
evaluated in `unsigned long`. -/
def update_perk (c : Constants) (fuel : Nat) (s : RandomState) (game : Game) :
    Option (RandomState × Game) :=
  if game.played_frames = game.perk_end_frame then
    some (s, { game with perk := PERK_NONE })
  else if game.played_frames =
      to_uint64 ((game.perk_end_frame : Int) - (c.PERK_SCREEN_DURATION_IN_FRAMES : Int) +
        (c.PERK_INTERVAL_IN_FRAMES : Int)) then
    match c.get_random_perk fuel s with
    | none => none
    | some (perk, s) =>
      match random_integer fuel s game.box.min_x game.box.max_x with
      | none => none
      | some (perk_x, s) =>
        match random_integer fuel s game.box.min_y game.box.max_y with
        | none => none
        | some (perk_y, s) =>
          some (s, { game with
            perk := perk, perk_x := perk_x, perk_y := perk_y,
            perk_end_frame := game.played_frames + c.PERK_SCREEN_DURATION_IN_FRAMES })
  else some (s, game)

/-- The function `is_jumping`. -/
def is_jumping (player : Player) : Bool :=
  decide (player.remaining_jump_height > 0)

/-- The function `is_standing_on_platform`. -/
def is_standing_on_platform (game : Game) : Bool :=
  if game.player.perk = PERK_POWER_INVINCIBILITY ∧ game.player.y = game.box.max_y then true
  else game.platforms.any (fun platform => is_over_platform game.player.x game.player.y platform)

/-- The function `process_jump`. -/
def process_jump (c : Constants) (game : Game) : Game :=
  if is_standing_on_platform game then
    let height := c.PLAYER_JUMPING_HEIGHT
    let height := if game.player.perk = PERK_POWER_SUPER_JUMP then height * 2 else height
    { game with player := { game.player with remaining_jump_height := height } }
  else if game.player.can_double_jump ≠ 0 then
    let height := game.player.remaining_jump_height + Int.tdiv c.PLAYER_JUMPING_HEIGHT 2
    let height := if game.player.perk = PERK_POWER_SUPER_JUMP then height * 2 else height
    { game with player :=
      { game.player with can_double_jump := 0, remaining_jump_height := height } }
  else game

/-- The function `process_command`. -/
def process_command (c : Constants) (game : Game) (command : Command) : Game :=
  let game :=
    if command ≠ COMMAND_NONE then { game with player := { game.player with physics := 1 } }
    else game
  if command = COMMAND_LEFT then
    if game.player.speed_x = 0 then
      { game with player := { game.player with speed_x := -c.PLAYER_RUNNING_SPEED } }
    else if game.player.speed_x > 0 then
      { game with player := { game.player with speed_x := 0 } }
    else game
  else if command = COMMAND_RIGHT then
    if game.player.speed_x = 0 then
      { game with player := { game.player with speed_x := c.PLAYER_RUNNING_SPEED } }
    else if game.player.speed_x < 0 then
      { game with player := { game.player with speed_x := 0 } }
    else game
  else if command = COMMAND_JUMP then process_jump c game
  else game

/-- The function `update_player_vertical_position`. -/
def update_player_vertical_position (c : Constants) (game : Game) : Option Game :=
  if is_jumping game.player then
    match should_move_at_current_frame c game c.PLAYER_JUMPING_SPEED with
    | none => none
    | some false => some game
    | some true =>
      let game := move_player game 0 (-1)
      some { game with player :=
        { game.player with remaining_jump_height := game.player.remaining_jump_height - 1 } }
  else if is_falling game.player game.platforms then
    let falling_speed := c.PLAYER_FALLING_SPEED
    let falling_speed :=
      if game.player.perk = PERK_POWER_LOW_GRAVITY then Int.tdiv falling_speed 2
      else falling_speed
    match should_move_at_current_frame c game falling_speed with
    | none => none
    | some false => some game
    | some true => some (move_player game 0 1)
  else some game

/-- The function `write_perk_message`: the text written to `game->message`. -/
def write_perk_message (c : Constants) (perk : Perk) : String :=
  "Got " ++ c.get_perk_name perk ++ "!"

/-- The function `update_player_perk`. -/
def update_player_perk (c : Constants) (game : Game) : Game :=
  if game.player.physics ≠ 0 then
    let game := { game with played_frames := game.played_frames + 1 }
    let game :=
      if game.player.perk ≠ PERK_NONE ∧ game.played_frames = game.player.perk_end_frame then
        { game with player := { game.player with perk := PERK_NONE } }
      else game
    if game.perk ≠ PERK_NONE ∧ game.perk_x = game.player.x ∧ game.perk_y = game.player.y then
      let perk := game.perk
      let game := { game with perk := PERK_NONE }
      let game := { game with player := { game.player with perk := perk } }
      let game :=
        if is_bonus_perk perk then
          let player := conceive_bonus game.player perk
          { game with player :=
            { player with perk_end_frame := game.played_frames, perk := PERK_NONE } }
        else
          let end_frame := game.played_frames + c.PERK_PLAYER_DURATION_IN_FRAMES
          { game with player := { game.player with perk_end_frame := end_frame } }
      { game with message := write_perk_message c perk }
    else game
  else game

/-- Sample values for the constants: 30 frames per second, 24 lines. -/
def sample_constants : Constants :=
  { FPS := 30, LINES := 24, PLAYER_JUMPING_HEIGHT := 4, PLAYER_RUNNING_SPEED := 4,
    PLAYER_JUMPING_SPEED := 12, PLAYER_FALLING_SPEED := 12,
    PERK_SCREEN_DURATION_IN_FRAMES := 300, PERK_INTERVAL_IN_FRAMES := 600,
    PERK_PLAYER_DURATION_IN_FRAMES := 150,
    get_perk_name := fun _ => "perk",
    get_random_perk := fun _ s => some (PERK_POWER_LEVITATION, s) }

/-- A player at the cell (5, 5), with physics enabled and no perk. -/
def sample_player : Player :=
  { x := 5, y := 5, speed_x := 0, speed_y := 0, physics := 1, can_double_jump := 0,
    remaining_jump_height := 0, lives := 3, score := 0, perk := PERK_NONE,
    perk_end_frame := 0 }

/-- A game at frame 30 in the box `[0, 10] × [0, 10]`, without platforms. -/
def sample_game : Game :=
  { player := sample_player, platforms := [],
    box := { min_x := 0, min_y := 0, max_x := 10, max_y := 10 },
    frame := 30, played_frames := 0, perk := PERK_NONE, perk_x := 0, perk_y := 0,
    perk_end_frame := 0, message := "" }

/-- A platform on the bottom row of the box, moving down. -/
def sinking_game : Game :=
  { sample_game with
    platforms := [{ x := 3, y := 10, width := 3, speed_x := 0, speed_y := 1 }] }

/-- A platform at the right edge of the box, moving right. -/
def drifting_game : Game :=
  { sample_game with
    platforms := [{ x := 10, y := 4, width := 3, speed_x := 1, speed_y := 0 }] }

/-- The game `drifting_game` after the motion step: the platform has left the box. -/
def drifted_game : Game :=
  { sample_game with
    platforms := [{ x := 11, y := 4, width := 3, speed_x := 1, speed_y := 0 }] }

/-- The player stands on a platform that moves down. -/
def riding_game : Game :=
  { sample_game with
    platforms := [{ x := 4, y := 6, width := 3, speed_x := 0, speed_y := 1 }] }

/-- The player is right of the leading edge of a platform that moves right. -/
def pushing_game : Game :=
  { sample_game with
    platforms := [{ x := 2, y := 5, width := 3, speed_x := 1, speed_y := 0 }] }

/-- As `pushing_game`, with a second platform in the cell the player would be shoved
into. -/
def blocked_game : Game :=
  { sample_game with
    platforms := [{ x := 2, y := 5, width := 3, speed_x := 1, speed_y := 0 },
                  { x := 6, y := 5, width := 3, speed_x := 0, speed_y := 0 }] }

/-- An extra-points perk lies on the player's cell. -/
def perk_game : Game :=
  { sample_game with perk := PERK_BONUS_EXTRA_POINTS, perk_x := 5, perk_y := 5 }

/-- As `perk_game`, with the physics of the player disabled. -/
def idle_perk_game : Game :=
  { perk_game with player := { sample_player with physics := 0 } }

/-- The player holds levitation; `played_frames` equals `perk_end_frame`. -/
def levitating_game : Game :=
  { sample_game with player := { sample_player with perk := PERK_POWER_LEVITATION } }

/-- The player runs to the left. -/
def running_left_game : Game :=
  { sample_game with player := { sample_player with speed_x := -4 } }

/-- The player is in the air with two rows of jump left, holds super-jump and may
still double jump. -/
def airborne_game : Game :=
  { sample_game with
    player := { sample_player with
      perk := PERK_POWER_SUPER_JUMP, can_double_jump := 1, remaining_jump_height := 2 } }

/-- The player holds invincibility and is in the last column of the box. -/
def invincible_game : Game :=
  { sample_game with
    player := { sample_player with x := 10, perk := PERK_POWER_INVINCIBILITY } }

/-- The player holds time-stop; a platform is due to move at this frame. -/
def frozen_game : Game :=
  { drifting_game with player := { sample_player with perk := PERK_POWER_TIME_STOP } }

/-- A platform on the top row of the box, moving up. -/
def rising_game : Game :=
  { sample_game with
    platforms := [{ x := 3, y := 0, width := 3, speed_x := 0, speed_y := -1 }] }

/-- The game `rising_game` after the motion step: the platform is one row above the
box. -/
def risen_game : Game :=
  { sample_game with
    platforms := [{ x := 3, y := -1, width := 3, speed_x := 0, speed_y := -1 }] }

/-- The player holds invincibility and is on the bottom row of the box, with no
platform under it. -/
def grounded_game : Game :=
  { sample_game with
    player := { sample_player with y := 10, perk := PERK_POWER_INVINCIBILITY } }

/-! ## Lemmas on the generator -/

theorem find_next_power_of_two_loop_enough :
    ∀ (n k number result : Nat), number < 2 ^ n →
      find_next_power_of_two_loop (n + k) number result =
        find_next_power_of_two_loop n number result := by
  intro n
  induction n with
  | zero =>
    intro k number result h
    have h0 : number = 0 := by omega
    subst h0
    cases k with
    | zero => rfl
    | succ k => simp [find_next_power_of_two_loop]
  | succ n ih =>
    intro k number result h
    have hk : n + 1 + k = (n + k) + 1 := by omega
    rw [hk]
    unfold find_next_power_of_two_loop
    by_cases h0 : number = 0
    · simp [h0]
    · simp only [ne_eq, h0, not_false_eq_true, if_true]
      apply ih
      rw [Nat.shiftRight_eq_div_pow]
      omega

theorem random_integer_loop_zero_range (next_power_of_two fuel : Nat) (s : RandomState) :
    random_integer_loop 0 next_power_of_two fuel s = none := by
  induction fuel generalizing s with
  | zero => rfl
  | succ n ih =>
    unfold random_integer_loop
    by_cases h : next_power_of_two = 0
    · simp [h]
    · simp [h, ih]

theorem frame_multiple_eq_floor (FPS : Nat) (speed : Int) (h : speed ≠ 0) :
    (frame_multiple FPS speed : Int) = ⌊(FPS : ℚ) / (|speed| : ℚ) + 1 / 2⌋ := by
  have hpos : (0 : ℚ) < (speed.natAbs : ℚ) := by
    have := Int.natAbs_pos.mpr h
    exact_mod_cast this
  have hq : (FPS : ℚ) / (|speed| : ℚ) + 1 / 2 =
      (((2 * FPS + speed.natAbs : Nat) : Int) : ℚ) / ((2 * speed.natAbs : Nat) : ℚ) := by
    have habs : (|speed| : ℚ) = (speed.natAbs : ℚ) := by
      have := Nat.cast_natAbs (α := ℚ) speed
      rw [this]
      push_cast
      rfl
    push_cast
    simp only [habs]
    field_simp
    ring
  rw [hq, Rat.floor_intCast_div_natCast]
  unfold frame_multiple
  push_cast
  rfl

theorem random_integer_loop_lt (range next_power_of_two : Nat) :
    ∀ (fuel : Nat) (s s' : RandomState) (value : Nat),
      random_integer_loop range next_power_of_two fuel s = some (value, s') → value < range := by
  intro fuel
  induction fuel with
  | zero => intro s s' value h; simp [random_integer_loop] at h
  | succ n ih =>
    intro s s' value h
    unfold random_integer_loop at h
    by_cases h0 : next_power_of_two = 0
    · simp [h0] at h
    · by_cases hv : (next s).1 % next_power_of_two ≥ range
      · simp only [h0, hv, if_true, if_false] at h
        exact ih _ _ _ h
      · simp only [h0, hv, if_false] at h
        have hv' := Nat.lt_of_not_ge hv
        simp only [Option.some.injEq, Prod.mk.injEq] at h
        omega

theorem random_integer_range_exact (minimum maximum : Int) (hle : minimum ≤ maximum)
    (hd : maximum - minimum < INT_MAX) :
    (random_integer_range minimum maximum : Int) = maximum - minimum + 1 := by
  unfold random_integer_range to_uint64 wrap_int
  unfold INT_MAX at hd
  omega

theorem random_integer_result_exact (minimum : Int) (value : Nat) (hmin : INT_MIN ≤ minimum)
    (hmax : minimum + value ≤ INT_MAX) :
    wrap_int (((to_uint64 minimum + value) % UINT64_MODULUS : Nat) : Int) = minimum + value := by
  unfold to_uint64 wrap_int UINT64_MODULUS
  unfold INT_MIN at hmin
  unfold INT_MAX at hmax
  omega

theorem random_integer_bounds (fuel : Nat) (s s' : RandomState) (minimum maximum r : Int)
    (hmin : INT_MIN ≤ minimum) (hmax : maximum ≤ INT_MAX) (hle : minimum ≤ maximum)
    (hd : maximum - minimum < INT_MAX)
    (h : random_integer fuel s minimum maximum = some (r, s')) :
    minimum ≤ r ∧ r ≤ maximum := by
  unfold random_integer at h
  have hnot : ¬ (maximum < minimum) := not_lt.mpr hle
  simp only [hnot, if_false] at h
  cases hloop : random_integer_loop (random_integer_range minimum maximum)
      (find_next_power_of_two (random_integer_range minimum maximum)) fuel s with
  | none => simp [hloop] at h
  | some p =>
    obtain ⟨value, s1⟩ := p
    simp only [hloop, Option.some.injEq, Prod.mk.injEq] at h
    have hlt := random_integer_loop_lt _ _ _ _ _ _ hloop
    have hr := random_integer_range_exact minimum maximum hle hd
    have hv : minimum + (value : Int) ≤ INT_MAX := by omega
    rw [random_integer_result_exact minimum value hmin hv] at h
    omega

/-! ## Lemmas on the occupancy table and the probe -/

theorem getD_set_true (occupied : List Bool) (i k : Nat) (hi : i < occupied.length) :
    (occupied.set i true).getD k false = true ↔ (occupied.getD k false = true ∨ k = i) := by
  simp only [List.getD_eq_getElem?_getD, List.getElem?_set]
  by_cases hik : i = k
  · subst hik
    simp [hi]
  · have hki : ¬ (k = i) := fun h => hik h.symm
    simp [hik, hki]

theorem build_occupied_spec (min_y : Int) :
    ∀ (platforms : List Platform) (occupied : List Bool),
      (∀ q ∈ platforms, 0 ≤ q.y - min_y ∧ q.y - min_y < (occupied.length : Int)) →
      ∃ table, build_occupied min_y platforms occupied = some table ∧
        table.length = occupied.length ∧
        ∀ k : Nat, (table.getD k false = true ↔
          (occupied.getD k false = true ∨ ∃ q ∈ platforms, q.y - min_y = (k : Int))) := by
  intro platforms
  induction platforms with
  | nil =>
    intro occupied _
    exact ⟨occupied, rfl, rfl, fun k => by simp⟩
  | cons p rest ih =>
    intro occupied h
    have hp := h p (List.mem_cons_self _ _)
    have hidx : (p.y - min_y).toNat < occupied.length := by omega
    have hrest : ∀ q ∈ rest, 0 ≤ q.y - min_y ∧
        q.y - min_y < (((occupied.set (p.y - min_y).toNat true).length : Nat) : Int) := by
      intro q hq
      rw [List.length_set]
      exact h q (List.mem_cons_of_mem _ hq)
    obtain ⟨table, hb, hlen, hspec⟩ := ih (occupied.set (p.y - min_y).toNat true) hrest
    refine ⟨table, ?_, ?_, ?_⟩
    · unfold build_occupied
      simp only [hp, and_self, if_true]
      exact hb
    · rw [hlen, List.length_set]
    · intro k
      rw [hspec k, getD_set_true occupied _ k hidx]
      constructor
      · rintro ((h1 | h1) | ⟨q, hq, hqk⟩)
        · exact Or.inl h1
        · exact Or.inr ⟨p, List.mem_cons_self _ _, by omega⟩
        · exact Or.inr ⟨q, List.mem_cons_of_mem _ hq, hqk⟩
      · rintro (h1 | ⟨q, hq, hqk⟩)
        · exact Or.inl (Or.inl h1)
        · rcases List.mem_cons.mp hq with hqp | hqr
          · subst hqp
            exact Or.inl (Or.inr (by omega))
          · exact Or.inr ⟨q, hqr, hqk⟩

theorem tmod_bounds (a b : Int) (hb : 0 < b) : -b < Int.tmod a b ∧ Int.tmod a b < b := by
  refine ⟨?_, Int.tmod_lt_of_pos a hb⟩
  by_cases ha : 0 ≤ a
  · have := Int.tmod_nonneg b ha
    omega
  · have h1 : Int.tmod (-a) b = (-a) % b := Int.tmod_eq_emod (by omega) (le_of_lt hb)
    have h2 := Int.emod_lt_of_pos (-a) hb
    have h3 : Int.tmod a b = -(Int.tmod (-a) b) := by
      rw [Int.tmod_def, Int.tmod_def, Int.neg_tdiv]
      ring
    omega

theorem tmod_succ_of_neg (line box_height : Int) (h1 : line < 0) (h2 : -box_height < line) :
    Int.tmod (line + 1) box_height = line + 1 := by
  have hneg : line + 1 = -(-(line + 1)) := by ring
  rw [Int.tmod_def, hneg, Int.neg_tdiv, Int.tdiv_eq_zero_of_lt (by omega) (by omega)]
  ring

theorem probe_line_bounds (occupied : List Bool) (size box_height : Int)
    (hh : 0 < box_height) :
    ∀ (n : Nat) (line : Int), -(n : Int) ≤ line → -box_height < line → line < box_height →
      0 ≤ probe_line occupied size box_height n line ∧
        probe_line occupied size box_height n line < box_height := by
  intro n
  induction n with
  | zero =>
    intro line h1 _ h3
    simp only [probe_line]
    exact ⟨by simpa using h1, h3⟩
  | succ n ih =>
    intro line h1 h2 h3
    unfold probe_line
    split
    · rename_i hc
      exact ⟨hc.1, h3⟩
    · by_cases hneg : line < 0
      · rw [tmod_succ_of_neg line box_height hneg h2]
        apply ih
        · push_cast at h1
          omega
        · omega
        · omega
      · have hnn : 0 ≤ line + 1 := by omega
        rw [Int.tmod_eq_emod hnn (le_of_lt hh)]
        have ha := Int.emod_nonneg (line + 1) (ne_of_gt hh)
        have hb := Int.emod_lt_of_pos (line + 1) hh
        apply ih
        · omega
        · omega
        · omega

theorem probe_line_first (occupied : List Bool) (size box_height : Int)
    (hh : 0 < box_height) (hs : box_height ≤ size) :
    ∀ (n : Nat) (line : Int), 0 ≤ line → line < box_height →
      (∃ k : Nat, k < n ∧
          probe_line occupied size box_height n line = (line + k) % box_height ∧
          occupied.getD ((line + k) % box_height).toNat false = false ∧
          ∀ j : Nat, j < k → occupied.getD ((line + j) % box_height).toNat false = true) ∨
        ((∀ j : Nat, j < n → occupied.getD ((line + j) % box_height).toNat false = true) ∧
          probe_line occupied size box_height n line = (line + n) % box_height) := by
  intro n
  induction n with
  | zero =>
    intro line h1 h2
    right
    refine ⟨fun j hj => absurd hj (Nat.not_lt_zero j), ?_⟩
    simp only [probe_line, Nat.cast_zero, add_zero]
    exact (Int.emod_eq_of_lt h1 h2).symm
  | succ n ih =>
    intro line h1 h2
    have hself : (line + ((0 : Nat) : Int)) % box_height = line := by
      simp only [Nat.cast_zero, add_zero]
      exact Int.emod_eq_of_lt h1 h2
    have hstep : ∀ j : Nat, ((line + 1) % box_height + (j : Int)) % box_height =
        (line + ((j + 1 : Nat) : Int)) % box_height := by
      intro j
      rw [Int.emod_add_emod]
      push_cast
      congr 1
      ring
    unfold probe_line
    split
    · rename_i hc
      left
      refine ⟨0, Nat.succ_pos n, ?_, ?_, fun j hj => absurd hj (Nat.not_lt_zero j)⟩
      · exact hself.symm
      · rw [hself]
        exact hc.2.2
    · rename_i hc
      have hocc : occupied.getD line.toNat false = true := by
        cases hv : occupied.getD line.toNat false with
        | true => rfl
        | false => exact absurd ⟨h1, lt_of_lt_of_le h2 hs, hv⟩ hc
      have hnn : 0 ≤ line + 1 := by omega
      rw [Int.tmod_eq_emod hnn (le_of_lt hh)]
      have ha := Int.emod_nonneg (line + 1) (ne_of_gt hh)
      have hb := Int.emod_lt_of_pos (line + 1) hh
      rcases ih ((line + 1) % box_height) ha hb with ⟨k, hk, hres, hfree, hall⟩ | ⟨hall, hres⟩
      · left
        refine ⟨k + 1, Nat.succ_lt_succ hk, ?_, ?_, ?_⟩
        · rw [hres, hstep]
        · rw [← hstep]
          exact hfree
        · intro j hj
          cases j with
          | zero => rw [hself]; exact hocc
          | succ j =>
            rw [← hstep]
            exact hall j (Nat.lt_of_succ_lt_succ hj)
      · right
        refine ⟨?_, ?_⟩
        · intro j hj
          cases j with
          | zero => rw [hself]; exact hocc
          | succ j =>
            rw [← hstep]
            exact hall j (Nat.lt_of_succ_lt_succ hj)
        · rw [hres, hstep]

/-- What `reposition` does with a platform that is out of the box to the left or to
the right, when the draw of the random line returns: the table is built, the probe
runs from `random_line % box_height`, and the platform is put on the probed line at
the opposite edge. -/
theorem reposition_horizontal (c : Constants) (fuel : Nat) (s s' : RandomState) (game : Game)
    (i : Nat) (platform : Platform) (random_line : Int)
    (hbox_y : game.box.min_y ≤ game.box.max_y)
    (hheight : game.box.max_y - game.box.min_y + 1 ≤ c.LINES - 2)
    (hrows : ∀ q ∈ game.platforms, game.box.min_y ≤ q.y ∧ q.y ≤ game.box.max_y)
    (hplat : game.platforms[i]? = some platform)
    (hout : is_out_of_bounding_box platform game.box = 1)
    (hdraw : random_integer fuel s game.box.min_y game.box.max_y = some (random_line, s')) :
    ∃ table : List Bool,
      (∀ k : Nat, (table.getD k false = true ↔
        ∃ q ∈ game.platforms, q.y - game.box.min_y = (k : Int))) ∧
      reposition c fuel s game i = some (s', set_platform game i
        { platform with
          x := if platform.x > game.box.max_x then game.box.min_x - platform.width + 1
               else game.box.max_x,
          y := probe_line table (c.LINES - 2) (game.box.max_y - game.box.min_y + 1)
                (c.LINES - 2).toNat
                (Int.tmod random_line (game.box.max_y - game.box.min_y + 1)) +
              game.box.min_y }) := by
  have hlen : ((List.replicate (c.LINES - 2).toNat false).length : Int) = c.LINES - 2 := by
    rw [List.length_replicate]
    omega
  have hidx : ∀ q ∈ game.platforms, 0 ≤ q.y - game.box.min_y ∧
      q.y - game.box.min_y < ((List.replicate (c.LINES - 2).toNat false).length : Int) := by
    intro q hq
    have := hrows q hq
    rw [hlen]
    omega
  obtain ⟨table, hbuild, _, hspec⟩ := build_occupied_spec game.box.min_y game.platforms _ hidx
  refine ⟨table, ?_, ?_⟩
  · intro k
    rw [hspec k]
    constructor
    · rintro (h | h)
      · simp [List.getD_eq_getElem?_getD, List.getElem?_replicate] at h
        split at h <;> simp at h
      · exact h
    · exact fun h => Or.inr h
  · have hne : ¬ (game.box.max_y - game.box.min_y + 1 = 0) := by omega
    have hside : platform.x + platform.width < game.box.min_x ∨ platform.x > game.box.max_x := by
      unfold is_out_of_bounding_box at hout
      by_contra hcon
      simp only [hcon, if_false] at hout
      split at hout <;> omega
    unfold reposition
    simp only [hplat, hdraw, hne, if_false, hbuild]
    by_cases hright : platform.x > game.box.max_x
    · simp only [hright, if_true]
    · have hleft : platform.x + platform.width < game.box.min_x := by
        rcases hside with h | h
        · exact h
        · exact absurd h hright
      simp only [hright, if_false, hleft, if_true]

/-! ## Lemmas on the motion of the player and of a platform -/

theorem move_player_box (game : Game) (x y : Int) :
    (move_player game x y).box = game.box ∧
      (move_player game x y).platforms = game.platforms := by
  unfold move_player
  dsimp only
  split <;> exact ⟨rfl, rfl⟩

theorem shove_player_box (game : Game) (x y : Int) :
    (shove_player game x y).box = game.box ∧
      (shove_player game x y).platforms = game.platforms := by
  unfold shove_player
  dsimp only
  split
  · split
    · exact ⟨((move_player_box _ 0 y).1).trans (move_player_box game x 0).1,
        ((move_player_box _ 0 y).2).trans (move_player_box game x 0).2⟩
    · exact move_player_box game 0 y
  · exact ⟨rfl, rfl⟩

theorem move_player_zero (game : Game) : move_player game 0 0 = game := by
  unfold move_player
  dsimp only
  split
  · simp [normalize]
  · rfl

theorem move_platform_horizontally_box (c : Constants) (game game' : Game) (i : Nat)
    (h : move_platform_horizontally c game i = some game') : game'.box = game.box := by
  unfold move_platform_horizontally at h
  split at h
  · exact Option.noConfusion h
  · split at h
    · exact Option.noConfusion h
    · cases h; rfl
    · cases h
      dsimp only [set_platform]
      repeat' split
      all_goals first | rfl | exact (shove_player_box _ _ _).1

theorem move_platform_vertically_box (c : Constants) (game game' : Game) (i : Nat)
    (h : move_platform_vertically c game i = some game') : game'.box = game.box := by
  unfold move_platform_vertically at h
  split at h
  · exact Option.noConfusion h
  · split at h
    · exact Option.noConfusion h
    · cases h; rfl
    · cases h
      dsimp only [set_platform]
      repeat' split
      all_goals first | rfl | exact (shove_player_box _ _ _).1

/-! ## Lemmas on the frame counters -/

theorem should_move_at_current_frame_some (c : Constants) (game : Game) (speed : Int)
    (h : speed.natAbs ≤ 2 * c.FPS) :
    ∃ b, should_move_at_current_frame c game speed = some b := by
  unfold should_move_at_current_frame
  split
  · exact ⟨false, rfl⟩
  · rename_i hne
    have hs : speed ≠ 0 := fun h0 => hne (Or.inl h0)
    have hpos : 0 < speed.natAbs := Int.natAbs_pos.mpr hs
    have hm : frame_multiple c.FPS speed ≠ 0 := by
      unfold frame_multiple
      have : 1 ≤ (2 * c.FPS + speed.natAbs) / (2 * speed.natAbs) := by
        rw [Nat.le_div_iff_mul_le (by omega)]
        omega
      omega
    simp only [hm, if_false]
    exact ⟨_, rfl⟩

theorem not_falling_of_over_platform (player : Player) (platforms : List Platform)
    (h : platforms.any (fun platform => is_over_platform player.x player.y platform) = true) :
    is_falling player platforms = false := by
  unfold is_falling
  split
  · rfl
  · obtain ⟨platform, hmem, hover⟩ := List.any_eq_true.mp h
    have hany : platforms.any (fun platform =>
        decide (player.y = platform.y - 1) &&
          (decide (player.x ≥ platform.x) &&
            decide (player.x < platform.x + platform.width))) = true := by
      apply List.any_eq_true.mpr
      refine ⟨platform, hmem, ?_⟩
      unfold is_over_platform is_within_platform at hover
      simp only [Bool.and_eq_true, decide_eq_true_eq] at hover ⊢
      omega
    rw [hany]
    rfl

theorem move_player_down_blocked (game : Game)
    (hperk : game.player.perk = PERK_POWER_INVINCIBILITY)
    (hrow : game.player.y = game.box.max_y) : move_player game 0 1 = game := by
  have hz : normalize 0 = 0 := by decide
  have ho : normalize 1 = 1 := by decide
  have hv : is_valid_move game (game.player.x + 0) (game.player.y + 1) = false := by
    unfold is_valid_move
    have hw : (game.box.min_x - 1 = game.player.x + 0 ∨ game.box.max_x + 1 = game.player.x + 0) ∨
        (game.box.min_y - 1 = game.player.y + 1 ∨ game.box.max_y + 1 = game.player.y + 1) :=
      Or.inr (Or.inr (by omega))
    rw [if_pos ⟨hperk, hw⟩]
  unfold move_player
  simp only [hz, ho, hv]
  rfl

/-! ## Lemmas on the box and the lives along `update_player` -/

/-- C1 (the code at the failing input): for the pair `INT_MIN`, `INT_MAX` the range
variable of `random_integer` is 0 instead of `2 ^ 32`, and the rejection loop never
leaves, whatever the generator state and however many draws are allowed. -/
theorem random_integer_full_range_never_returns (fuel : Nat) (s : RandomState) :
    random_integer_range INT_MIN INT_MAX = 0 ∧
      INT_MAX - INT_MIN + 1 = 2 ^ 32 ∧
      random_integer fuel s INT_MIN INT_MAX = none := by
  have hr : random_integer_range INT_MIN INT_MAX = 0 := by decide
  refine ⟨hr, by decide, ?_⟩
  unfold random_integer
  simp only [hr, random_integer_loop_zero_range]
  have : ¬ (INT_MAX < INT_MIN) := by decide
  simp [this]

/-- C2 (as stated, refuted): with the initial generator state, `random_integer(5, 3)`
returns 0 and not the minimum 5. -/
theorem random_integer_reversed_returns_zero_not_min :
    random_integer 1 initial_state 5 3 = some (0, initial_state) ∧
      random_integer 1 initial_state 5 3 ≠ some (5, initial_state) := by
  decide

/-- C2 (amended): for every generator state and every pair with `maximum < minimum`,
`random_integer` returns 0 and leaves the generator state as it was. -/
theorem random_integer_reversed_range (fuel : Nat) (s : RandomState) (minimum maximum : Int)
    (h : maximum < minimum) : random_integer fuel s minimum maximum = some (0, s) := by
  unfold random_integer
  simp [h]

theorem random_integer_reversed_range_witness :
    random_integer 0 initial_state 5 3 = some (0, initial_state) :=
  random_integer_reversed_range 0 initial_state 5 3 (by decide)

/-- C3 (the code at the failing input): the platform of width 3 at `x = -3`, row 5,
occupies the cells -3, -2, -1, none of which is in the box `[0, 10] × [0, 10]`, and
every one of which is left of `min_x`; `is_out_of_bounding_box` returns 0 for it. -/
theorem is_out_of_bounding_box_adjacent_left :
    is_out_of_bounding_box { x := -3, y := 5, width := 3, speed_x := 0, speed_y := 0 }
        { min_x := 0, min_y := 0, max_x := 10, max_y := 10 } = 0 ∧
      ∀ x : Int, -3 ≤ x ∧ x ≤ -3 + 3 - 1 → x < 0 ∧ ¬ (0 ≤ x ∧ x ≤ 10) := by
  refine ⟨by decide, ?_⟩
  intro x hx
  omega

/-- C4 (the code at the failing input): for every frame rate, at every frame other
than 0, the speed `2 * FPS + 1` gives the period `multiple = 0`, so that
`should_move_at_current_frame` takes a remainder by zero. -/
theorem should_move_at_current_frame_zero_multiple (c : Constants) (game : Game) :
    frame_multiple c.FPS (2 * (c.FPS : Int) + 1) = 0 ∧
      should_move_at_current_frame c { game with frame := game.frame + 1 }
        (2 * (c.FPS : Int) + 1) = none := by
  have hm : frame_multiple c.FPS (2 * (c.FPS : Int) + 1) = 0 := by
    unfold frame_multiple
    have : (2 * (c.FPS : Int) + 1).natAbs = 2 * c.FPS + 1 := by omega
    rw [this]
    apply Nat.div_eq_of_lt
    omega
  refine ⟨hm, ?_⟩
  unfold should_move_at_current_frame
  have h1 : ¬ (2 * (c.FPS : Int) + 1 = 0) := by omega
  simp [h1, hm]

/-- C5 (as stated, refuted): a platform on the bottom row that moves down leaves the
box below it; `update_platform` returns with the platform on row 11, for which
`is_out_of_bounding_box` is 2. The box is valid and its height is at most
`LINES - 2`. -/
theorem update_platform_leaves_platform_below :
    (sinking_game.box.min_x ≤ sinking_game.box.max_x ∧
      sinking_game.box.min_y ≤ sinking_game.box.max_y ∧
      sinking_game.box.max_y - sinking_game.box.min_y + 1 ≤ sample_constants.LINES - 2) ∧
    (update_platform sample_constants 10 initial_state sinking_game 0).map
      (fun r => r.2.platforms.map (fun p => (p.y, is_out_of_bounding_box p r.2.box))) =
      some [(11, 2)] := by
  decide

/-- C5 (amended): in a game with a valid box of height at most `LINES - 2`, if the
motion step of `update_platform` returns and leaves the platform, of width at least
1, out of the box to the left or to the right (`is_out_of_bounding_box = 1`), with
all platform rows inside the box, and the draw of the random line returns, then
`update_platform` returns and the platform is back in the box:
`is_out_of_bounding_box = 0`. -/
theorem update_platform_back_in_box (c : Constants) (fuel : Nat) (s s' : RandomState)
    (game game1 game2 : Game) (i : Nat) (platform : Platform) (random_line : Int)
    (hbox_x : game.box.min_x ≤ game.box.max_x)
    (hbox_y : game.box.min_y ≤ game.box.max_y)
    (hheight : game.box.max_y - game.box.min_y + 1 ≤ c.LINES - 2)
    (hmove_x : move_platform_horizontally c game i = some game1)
    (hmove_y : move_platform_vertically c game1 i = some game2)
    (hplat : game2.platforms[i]? = some platform)
    (hwidth : 1 ≤ platform.width)
    (hout : is_out_of_bounding_box platform game.box = 1)
    (hrows : ∀ q ∈ game2.platforms, game.box.min_y ≤ q.y ∧ q.y ≤ game.box.max_y)
    (hdraw : random_integer fuel s game.box.min_y game.box.max_y = some (random_line, s')) :
    ∃ (game' : Game) (platform' : Platform),
      update_platform c fuel s game i = some (s', game') ∧
      game'.box = game.box ∧
      game'.platforms[i]? = some platform' ∧
      is_out_of_bounding_box platform' game'.box = 0 := by
  have hb : game2.box = game.box :=
    (move_platform_vertically_box c game1 game2 i hmove_y).trans
      (move_platform_horizontally_box c game game1 i hmove_x)
  rw [← hb] at hbox_x hbox_y hheight hout hrows hdraw
  obtain ⟨table, _, hrep⟩ := reposition_horizontal c fuel s s' game2 i platform random_line
    hbox_y hheight hrows hplat hout hdraw
  have hh : 0 < game2.box.max_y - game2.box.min_y + 1 := by omega
  have hilt : i < game2.platforms.length := by
    rcases List.getElem?_eq_some.mp hplat with ⟨h, _⟩
    exact h
  have hstart := tmod_bounds random_line (game2.box.max_y - game2.box.min_y + 1) hh
  have hbounds := probe_line_bounds table (c.LINES - 2) _ hh (c.LINES - 2).toNat
    (Int.tmod random_line (game2.box.max_y - game2.box.min_y + 1))
    (by omega) hstart.1 hstart.2
  have hne : is_out_of_bounding_box platform game2.box ≠ 0 := by rw [hout]; decide
  have hup : update_platform c fuel s game i = reposition c fuel s game2 i := by
    unfold update_platform
    simp only [hmove_x, hmove_y, hplat, hne, if_true, ne_eq, not_false_eq_true]
  refine ⟨_, { platform with
      x := if platform.x > game2.box.max_x then game2.box.min_x - platform.width + 1
           else game2.box.max_x,
      y := probe_line table (c.LINES - 2) (game2.box.max_y - game2.box.min_y + 1)
            (c.LINES - 2).toNat
            (Int.tmod random_line (game2.box.max_y - game2.box.min_y + 1)) +
          game2.box.min_y }, hup.trans hrep, ?_, ?_, ?_⟩
  · exact hb
  · simp only [set_platform]
    rw [List.getElem?_set]
    simp [hilt]
  · unfold is_out_of_bounding_box
    simp only [set_platform]
    have hx1 : ¬ ((if platform.x > game2.box.max_x then game2.box.min_x - platform.width + 1
        else game2.box.max_x) + platform.width < game2.box.min_x ∨
        (if platform.x > game2.box.max_x then game2.box.min_x - platform.width + 1
        else game2.box.max_x) > game2.box.max_x) := by
      split <;> omega
    have hy1 : ¬ (probe_line table (c.LINES - 2) (game2.box.max_y - game2.box.min_y + 1)
            (c.LINES - 2).toNat
            (Int.tmod random_line (game2.box.max_y - game2.box.min_y + 1)) +
          game2.box.min_y < game2.box.min_y ∨
        probe_line table (c.LINES - 2) (game2.box.max_y - game2.box.min_y + 1)
            (c.LINES - 2).toNat
            (Int.tmod random_line (game2.box.max_y - game2.box.min_y + 1)) +
          game2.box.min_y > game2.box.max_y) := by
      omega
    simp only [hx1, hy1, if_false]

theorem update_platform_back_in_box_witness :
    ∃ (game' : Game) (platform' : Platform),
      update_platform sample_constants 10 initial_state drifting_game 0 =
        some ({ s0 := 1532155386350299384, s1 := 158068485162208863 }, game') ∧
      game'.box = drifting_game.box ∧
      game'.platforms[0]? = some platform' ∧
      is_out_of_bounding_box platform' game'.box = 0 :=
  update_platform_back_in_box sample_constants 10 initial_state
    { s0 := 1532155386350299384, s1 := 158068485162208863 }
    drifting_game drifted_game drifted_game 0
    { x := 11, y := 4, width := 3, speed_x := 1, speed_y := 0 } 7
    (by decide) (by decide) (by decide) (by decide) (by decide) (by decide) (by decide)
    (by decide) (by decide) (by decide)

/-- C6: in a game with a valid box of height at most `LINES - 2`, `min_y ≥ 0` and all
platform rows inside the box, `reposition` of a platform that is out to the left or
to the right (with the draw of the random line returning `random_line`) returns, and
the new row of the platform lies in `[min_y, max_y]`; if some row of the box held no
platform, the new row held none, and it is the first such row met when probing forward
with wrap-around from the start row `min_y + random_line % box_height`. -/
theorem reposition_row_first_unoccupied (c : Constants) (fuel : Nat) (s s' : RandomState)
    (game : Game) (i : Nat) (platform : Platform) (random_line : Int)
    (hbox_y : game.box.min_y ≤ game.box.max_y)
    (hheight : game.box.max_y - game.box.min_y + 1 ≤ c.LINES - 2)
    (hmin : 0 ≤ game.box.min_y)
    (hint : game.box.max_y ≤ INT_MAX ∧ c.LINES ≤ INT_MAX)
    (hrows : ∀ q ∈ game.platforms, game.box.min_y ≤ q.y ∧ q.y ≤ game.box.max_y)
    (hplat : game.platforms[i]? = some platform)
    (hout : is_out_of_bounding_box platform game.box = 1)
    (hdraw : random_integer fuel s game.box.min_y game.box.max_y = some (random_line, s')) :
    ∃ (game' : Game) (platform' : Platform),
      reposition c fuel s game i = some (s', game') ∧
      game'.platforms[i]? = some platform' ∧
      game.box.min_y ≤ platform'.y ∧ platform'.y ≤ game.box.max_y ∧
      ((∃ row : Int, game.box.min_y ≤ row ∧ row ≤ game.box.max_y ∧
          ∀ q ∈ game.platforms, q.y ≠ row) →
        (∀ q ∈ game.platforms, q.y ≠ platform'.y) ∧
        ∃ k : Nat, (k : Int) < game.box.max_y - game.box.min_y + 1 ∧
          platform'.y = game.box.min_y +
            (random_line % (game.box.max_y - game.box.min_y + 1) + k) %
              (game.box.max_y - game.box.min_y + 1) ∧
          ∀ j : Nat, j < k → ∃ q ∈ game.platforms, q.y = game.box.min_y +
            (random_line % (game.box.max_y - game.box.min_y + 1) + j) %
              (game.box.max_y - game.box.min_y + 1)) := by
  obtain ⟨table, htable, hrep⟩ := reposition_horizontal c fuel s s' game i platform random_line
    hbox_y hheight hrows hplat hout hdraw
  have hh : 0 < game.box.max_y - game.box.min_y + 1 := by omega
  have hilt : i < game.platforms.length := by
    rcases List.getElem?_eq_some.mp hplat with ⟨h, _⟩
    exact h
  have hr := random_integer_bounds fuel s s' game.box.min_y game.box.max_y random_line
    (by unfold INT_MIN; omega) hint.1 hbox_y (by have := hint.2; omega) hdraw
  have hrl : 0 ≤ random_line := by omega
  have hstart : Int.tmod random_line (game.box.max_y - game.box.min_y + 1) =
      random_line % (game.box.max_y - game.box.min_y + 1) := Int.tmod_eq_emod hrl (le_of_lt hh)
  have hs0 := Int.emod_nonneg random_line (ne_of_gt hh)
  have hs1 := Int.emod_lt_of_pos random_line hh
  rw [hstart] at hrep
  have hbounds := probe_line_bounds table (c.LINES - 2) _ hh (c.LINES - 2).toNat
    (random_line % (game.box.max_y - game.box.min_y + 1)) (by omega) (by omega) hs1
  refine ⟨_, { platform with
      x := if platform.x > game.box.max_x then game.box.min_x - platform.width + 1
           else game.box.max_x,
      y := probe_line table (c.LINES - 2) (game.box.max_y - game.box.min_y + 1)
            (c.LINES - 2).toNat (random_line % (game.box.max_y - game.box.min_y + 1)) +
          game.box.min_y }, hrep, ?_, ?_, ?_, ?_⟩
  · simp only [set_platform]
    rw [List.getElem?_set]
    simp [hilt]
  · simp only
    omega
  · simp only
    omega
  · rintro ⟨row, hrow1, hrow2, hfree⟩
    simp only
    have hfree_table : table.getD (row - game.box.min_y).toNat false = false := by
      cases hv : table.getD (row - game.box.min_y).toNat false with
      | false => rfl
      | true =>
        obtain ⟨q, hq, hqy⟩ := (htable _).mp hv
        exact absurd (by omega) (hfree q hq)
    have hwrap : (random_line % (game.box.max_y - game.box.min_y + 1) +
        ((((row - game.box.min_y) - random_line % (game.box.max_y - game.box.min_y + 1)) %
          (game.box.max_y - game.box.min_y + 1)).toNat : Int)) %
          (game.box.max_y - game.box.min_y + 1) = row - game.box.min_y := by
      rw [Int.toNat_of_nonneg (Int.emod_nonneg _ (ne_of_gt hh)), Int.add_emod_emod]
      have : random_line % (game.box.max_y - game.box.min_y + 1) +
          (row - game.box.min_y - random_line % (game.box.max_y - game.box.min_y + 1)) =
          row - game.box.min_y := by ring
      rw [this]
      exact Int.emod_eq_of_lt (by omega) (by omega)
    have hj0 : ((((row - game.box.min_y) - random_line % (game.box.max_y - game.box.min_y + 1)) %
          (game.box.max_y - game.box.min_y + 1)).toNat : Int) <
          game.box.max_y - game.box.min_y + 1 := by
      rw [Int.toNat_of_nonneg (Int.emod_nonneg _ (ne_of_gt hh))]
      exact Int.emod_lt_of_pos _ hh
    rcases probe_line_first table (c.LINES - 2) _ hh hheight (c.LINES - 2).toNat
        (random_line % (game.box.max_y - game.box.min_y + 1)) hs0 hs1 with
      ⟨k, _, hres, hkfree, hall⟩ | ⟨hall, _⟩
    · have hklt : (k : Int) < game.box.max_y - game.box.min_y + 1 := by
        by_contra hcon
        have := hall _ (by omega : ((((row - game.box.min_y) -
          random_line % (game.box.max_y - game.box.min_y + 1)) %
          (game.box.max_y - game.box.min_y + 1)).toNat) < k)
        rw [hwrap, hfree_table] at this
        exact Bool.noConfusion this
      have hk0 := Int.emod_nonneg (random_line % (game.box.max_y - game.box.min_y + 1) + k)
        (ne_of_gt hh)
      refine ⟨?_, k, hklt, ?_, ?_⟩
      · intro q hq hqy
        have hocc := (htable ((random_line % (game.box.max_y - game.box.min_y + 1) + k) %
          (game.box.max_y - game.box.min_y + 1)).toNat).mpr
          ⟨q, hq, by rw [Int.toNat_of_nonneg hk0]; rw [hres] at hqy; omega⟩
        rw [hkfree] at hocc
        exact Bool.noConfusion hocc
      · rw [hres]
        ring
      · intro j hj
        have hj0' := Int.emod_nonneg (random_line % (game.box.max_y - game.box.min_y + 1) + j)
          (ne_of_gt hh)
        obtain ⟨q, hq, hqy⟩ := (htable _).mp (hall j hj)
        rw [Int.toNat_of_nonneg hj0'] at hqy
        exact ⟨q, hq, by omega⟩
    · exfalso
      have := hall _ (by omega : ((((row - game.box.min_y) -
          random_line % (game.box.max_y - game.box.min_y + 1)) %
          (game.box.max_y - game.box.min_y + 1)).toNat) < (c.LINES - 2).toNat)
      rw [hwrap, hfree_table] at this
      exact Bool.noConfusion this

theorem reposition_row_first_unoccupied_witness :
    ∃ (game' : Game) (platform' : Platform),
      reposition sample_constants 10 initial_state drifted_game 0 =
        some ({ s0 := 1532155386350299384, s1 := 158068485162208863 }, game') ∧
      game'.platforms[0]? = some platform' ∧
      drifted_game.box.min_y ≤ platform'.y ∧ platform'.y ≤ drifted_game.box.max_y ∧
      ((∃ row : Int, drifted_game.box.min_y ≤ row ∧ row ≤ drifted_game.box.max_y ∧
          ∀ q ∈ drifted_game.platforms, q.y ≠ row) →
        (∀ q ∈ drifted_game.platforms, q.y ≠ platform'.y) ∧
        ∃ k : Nat, (k : Int) < drifted_game.box.max_y - drifted_game.box.min_y + 1 ∧
          platform'.y = drifted_game.box.min_y +
            (7 % (drifted_game.box.max_y - drifted_game.box.min_y + 1) + k) %
              (drifted_game.box.max_y - drifted_game.box.min_y + 1) ∧
          ∀ j : Nat, j < k → ∃ q ∈ drifted_game.platforms, q.y = drifted_game.box.min_y +
            (7 % (drifted_game.box.max_y - drifted_game.box.min_y + 1) + j) %
              (drifted_game.box.max_y - drifted_game.box.min_y + 1)) :=
  reposition_row_first_unoccupied sample_constants 10 initial_state
    { s0 := 1532155386350299384, s1 := 158068485162208863 } drifted_game 0
    { x := 11, y := 4, width := 3, speed_x := 1, speed_y := 0 } 7
    (by decide) (by decide) (by decide) (by decide) (by decide) (by decide) (by decide)
    (by decide)

/-- C7 (as stated, refuted): at frame 30 the platform under the player moves down
(`speed_y = 1`), the player has physics enabled, stands in the platform's span and
exactly one row above it; after `move_platform_vertically` the platform is one row
lower and the player is where it was, on row 5 and not on row 6. -/
theorem move_platform_vertically_down_leaves_player :
    (should_move_at_current_frame sample_constants riding_game 1 = some true ∧
      riding_game.player.physics ≠ 0 ∧ riding_game.player = sample_player ∧
      riding_game.platforms = [{ x := 4, y := 6, width := 3, speed_x := 0, speed_y := 1 }]) ∧
    (move_platform_vertically sample_constants riding_game 0).map
      (fun g => (g.player.x, g.player.y, g.platforms.map (fun p => p.y))) =
      some (5, 5, [7]) := by
  decide

/-- C7 (amended): on a frame where `should_move_at_current_frame` holds for the
platform's vertical speed, with the player's physics enabled, the player's column in
the platform's span and the player exactly one row above the platform: if the
platform moves down (`speed_y > 0`), `move_platform_vertically` leaves the player as
it was and increases the platform's `y` by 1; if the platform moves up
(`speed_y < 0`) and the step to the cell above the player is a valid move, the player
is shoved one row up (`player.y` decreased by 1, `player.x` unchanged) and the
platform's `y` decreases by 1. -/
theorem move_platform_vertically_shove (c : Constants) (game : Game) (i : Nat)
    (platform : Platform)
    (hplat : game.platforms[i]? = some platform)
    (hmove : should_move_at_current_frame c game platform.speed_y = some true)
    (hphys : game.player.physics ≠ 0)
    (hcol : platform.x ≤ game.player.x ∧ game.player.x < platform.x + platform.width)
    (habove : game.player.y = platform.y - 1) :
    (platform.speed_y > 0 →
      ∃ game', move_platform_vertically c game i = some game' ∧
        game'.player = game.player ∧
        game'.platforms[i]? = some { platform with y := platform.y + 1 }) ∧
    (platform.speed_y < 0 → is_valid_move game game.player.x (game.player.y - 1) = true →
      ∃ game', move_platform_vertically c game i = some game' ∧
        game'.player.y = game.player.y - 1 ∧ game'.player.x = game.player.x ∧
        game'.platforms[i]? = some { platform with y := platform.y - 1 }) := by
  have hilt : i < game.platforms.length := by
    rcases List.getElem?_eq_some.mp hplat with ⟨h, _⟩
    exact h
  have hcol' : game.player.x ≥ platform.x ∧ game.player.x < platform.x + platform.width :=
    ⟨hcol.1, hcol.2⟩
  constructor
  · intro hdown
    have hn : normalize platform.speed_y = 1 := by
      unfold normalize
      rw [if_neg (by omega), if_neg (by omega)]
    have hres : move_platform_vertically c game i =
        some (set_platform game i { platform with y := platform.y + 1 }) := by
      unfold move_platform_vertically
      simp only [hplat, hmove, hcol', and_self, if_true, hn]
    refine ⟨_, hres, ?_, ?_⟩
    · rfl
    · simp only [set_platform]
      rw [List.getElem?_set]
      simp [hilt]
  · intro hup hvalid
    have hn : normalize platform.speed_y = -1 := by
      unfold normalize
      rw [if_pos hup]
    have hn1 : ¬ ((-1 : Int) = 1) := by decide
    have hshove : shove_player game 0 (-1) =
        { game with player := { game.player with y := game.player.y - 1 } } := by
      unfold shove_player
      simp only [hphys, ne_eq, not_false_eq_true, if_true, move_player_zero, ite_self]
      unfold move_player
      have hm : normalize (-1) = -1 := by decide
      have hz : normalize 0 = 0 := by decide
      simp only [hm, hz, add_zero]
      have hv : is_valid_move game game.player.x (game.player.y + -1) = true := hvalid
      simp only [hv, if_true]
      rfl
    have hres : move_platform_vertically c game i =
        some (set_platform { game with player := { game.player with y := game.player.y - 1 } } i
          { platform with y := platform.y - 1 }) := by
      unfold move_platform_vertically
      simp only [hplat, hmove, hcol', and_self, if_true, hn, hn1, if_false, habove, hshove]
      rfl
    refine ⟨_, hres, ?_, ?_, ?_⟩
    · rfl
    · rfl
    · simp only [set_platform]
      rw [List.getElem?_set]
      simp [hilt]

theorem move_platform_vertically_shove_witness :
    ∃ game', move_platform_vertically sample_constants riding_game 0 = some game' ∧
      game'.player = riding_game.player ∧
      game'.platforms[0]? = some { x := 4, y := 6 + 1, width := 3, speed_x := 0, speed_y := 1 } :=
  (move_platform_vertically_shove sample_constants riding_game 0
    { x := 4, y := 6, width := 3, speed_x := 0, speed_y := 1 }
    (by decide) (by decide) (by decide) (by decide) (by decide)).1 (by decide)

/-- C8 (as stated, refuted): at frame 30 the first platform moves right
(`speed_x = 1`); the player has physics enabled, holds no perk, is on the platform's
row and in the cell next to its leading edge (`5 = 2 + 3`); the cell (6, 5) belongs
to the second platform. After `move_platform_horizontally` the player is still in
column 5, not in column 6, and the first platform has moved to `x = 3`. -/
theorem move_platform_horizontally_blocked_player :
    (should_move_at_current_frame sample_constants blocked_game 1 = some true ∧
      blocked_game.player.physics ≠ 0 ∧ blocked_game.player.perk ≠ PERK_POWER_LEVITATION ∧
      blocked_game.player = sample_player ∧
      blocked_game.platforms[0]? =
        some { x := 2, y := 5, width := 3, speed_x := 1, speed_y := 0 }) ∧
    (move_platform_horizontally sample_constants blocked_game 0).map
      (fun g => (g.player.x, g.player.y, g.platforms.map (fun p => p.x))) =
      some (5, 5, [3, 6]) := by
  decide

/-- C8 (amended): on a frame where `should_move_at_current_frame` holds for the
platform's horizontal speed, if the player has physics enabled, does not hold
levitation, is on the platform's row and exactly adjacent to the platform's leading
edge in the direction of travel, and the cell one step further in that direction is a
valid move for the player (`is_valid_move`), then after `move_platform_horizontally`
the player's `x` has changed by `sign(speed_x)`, the player's `y` is unchanged and the
platform's `x` has changed by `sign(speed_x)`. -/
theorem move_platform_horizontally_shove (c : Constants) (game : Game) (i : Nat)
    (platform : Platform)
    (hplat : game.platforms[i]? = some platform)
    (hmove : should_move_at_current_frame c game platform.speed_x = some true)
    (hphys : game.player.physics ≠ 0)
    (hperk : game.player.perk ≠ PERK_POWER_LEVITATION)
    (hrow : game.player.y = platform.y)
    (hedge : (platform.speed_x > 0 ∧ game.player.x = platform.x + platform.width) ∨
      (platform.speed_x < 0 ∧ game.player.x = platform.x - 1))
    (hvalid : is_valid_move game (game.player.x + normalize platform.speed_x) game.player.y
      = true) :
    ∃ game', move_platform_horizontally c game i = some game' ∧
      game'.player.x = game.player.x + normalize platform.speed_x ∧
      game'.player.y = game.player.y ∧
      game'.platforms[i]? = some { platform with x := platform.x + normalize platform.speed_x } := by
  have hilt : i < game.platforms.length := by
    rcases List.getElem?_eq_some.mp hplat with ⟨h, _⟩
    exact h
  have hshove : ∀ d : Int, normalize d = d → d = normalize platform.speed_x →
      ((shove_player game d 0).player.x = game.player.x + d ∧
        (shove_player game d 0).player.y = game.player.y) ∧
      (shove_player game d 0).platforms = game.platforms := by
    intro d hd hdn
    refine ⟨?_, (shove_player_box game d 0).2⟩
    have hz : normalize 0 = 0 := by decide
    have hv : is_valid_move game (game.player.x + d) (game.player.y + 0) = true := by
      rw [hdn, add_zero]
      exact hvalid
    have hfirst : move_player game d 0 =
        { game with player := { game.player with x := game.player.x + d, y := game.player.y + 0 } } := by
      unfold move_player
      simp only [hd, hz, hv, if_true]
    unfold shove_player
    simp only [hphys, hperk, ne_eq, not_false_eq_true, if_true, hfirst]
    unfold move_player
    simp only [hz, add_zero]
    split <;> exact ⟨rfl, rfl⟩
  rcases hedge with ⟨hdir, hx⟩ | ⟨hdir, hx⟩
  · have hn : normalize platform.speed_x = 1 := by
      unfold normalize
      rw [if_neg (by omega), if_neg (by omega)]
    obtain ⟨⟨h1, h2⟩, h3⟩ := hshove 1 (by decide) hn.symm
    have hres : move_platform_horizontally c game i =
        some (set_platform (shove_player game 1 0) i
          { platform with x := platform.x + normalize platform.speed_x }) := by
      unfold move_platform_horizontally
      simp only [hplat, hmove, hrow, hx, if_true, hn]
    refine ⟨_, hres, ?_, ?_, ?_⟩
    · simp only [set_platform]
      rw [h1, hn]
    · simp only [set_platform]
      exact h2
    · simp only [set_platform]
      rw [List.getElem?_set, h3]
      simp [hilt]
  · have hn : normalize platform.speed_x = -1 := by
      unfold normalize
      rw [if_pos hdir]
    have hn1 : ¬ ((-1 : Int) = 1) := by decide
    obtain ⟨⟨h1, h2⟩, h3⟩ := hshove (-1) (by decide) hn.symm
    have hres : move_platform_horizontally c game i =
        some (set_platform (shove_player game (-1) 0) i
          { platform with x := platform.x + normalize platform.speed_x }) := by
      unfold move_platform_horizontally
      simp only [hplat, hmove, hrow, hx, if_true, hn, hn1, if_false]
    refine ⟨_, hres, ?_, ?_, ?_⟩
    · simp only [set_platform]
      rw [h1, hn]
    · simp only [set_platform]
      exact h2
    · simp only [set_platform]
      rw [List.getElem?_set, h3]
      simp [hilt]

theorem move_platform_horizontally_shove_witness :
    ∃ game', move_platform_horizontally sample_constants pushing_game 0 = some game' ∧
      game'.player.x = pushing_game.player.x + normalize 1 ∧
      game'.player.y = pushing_game.player.y ∧
      game'.platforms[0]? =
        some { x := 2 + normalize 1, y := 5, width := 3, speed_x := 1, speed_y := 0 } :=
  move_platform_horizontally_shove sample_constants pushing_game 0
    { x := 2, y := 5, width := 3, speed_x := 1, speed_y := 0 }
    (by decide) (by decide) (by decide) (by decide) (by decide) (by decide) (by decide)

/-- C10 (as stated, refuted): the field perk lies on the player's cell, but the
player's physics is disabled; after `update_player_perk` the field perk is still
there. -/
theorem update_player_perk_idle_keeps_field_perk :
    (idle_perk_game.perk ≠ PERK_NONE ∧
      idle_perk_game.player.x = idle_perk_game.perk_x ∧
      idle_perk_game.player.y = idle_perk_game.perk_y) ∧
    (update_player_perk sample_constants idle_perk_game).perk = PERK_BONUS_EXTRA_POINTS ∧
    (update_player_perk sample_constants idle_perk_game).perk ≠ PERK_NONE := by
  decide

/-- C10 (amended): in every game state in which the player's physics is enabled, the
field perk is not none and the player's cell equals the field perk's cell, after
`update_player_perk` the field perk is none and the game's `perk_end_frame` is
unchanged. -/
theorem update_player_perk_removes_field_perk (c : Constants) (game : Game)
    (hphys : game.player.physics ≠ 0)
    (hperk : game.perk ≠ PERK_NONE)
    (hcell : game.player.x = game.perk_x ∧ game.player.y = game.perk_y) :
    (update_player_perk c game).perk = PERK_NONE ∧
      (update_player_perk c game).perk_end_frame = game.perk_end_frame := by
  obtain ⟨hx, hy⟩ := hcell
  obtain ⟨player, platforms, box, frame, played_frames, perk, perk_x, perk_y, perk_end_frame,
    message⟩ := game
  simp only at hphys hperk hx hy
  subst hx hy
  by_cases hexp : player.perk ≠ PERK_NONE ∧ played_frames + 1 = player.perk_end_frame <;>
    cases perk <;>
    simp [update_player_perk, hphys, hexp, is_bonus_perk] at hperk ⊢

theorem update_player_perk_removes_field_perk_witness :
    (update_player_perk sample_constants perk_game).perk = PERK_NONE ∧
      (update_player_perk sample_constants perk_game).perk_end_frame =
        perk_game.perk_end_frame :=
  update_player_perk_removes_field_perk sample_constants perk_game
    (by decide) (by decide) (by decide)

/-- C11 (as stated, refuted): `played_frames` equals `perk_end_frame` and the player
holds levitation; after `update_perk` the player still holds levitation. -/
theorem update_perk_keeps_player_perk :
    levitating_game.played_frames = levitating_game.perk_end_frame ∧
    (update_perk sample_constants 10 initial_state levitating_game).map
      (fun r => r.2.player.perk) = some PERK_POWER_LEVITATION := by
  decide

/-- C11 (amended): in every game state with `played_frames == perk_end_frame`,
`update_perk` returns and makes the field perk expire: afterwards `game.perk` is none,
and the rest of the game, the perk held by the player included, is as before. -/
theorem update_perk_expires_field_perk (c : Constants) (fuel : Nat) (s : RandomState)
    (game : Game) (h : game.played_frames = game.perk_end_frame) :
    update_perk c fuel s game = some (s, { game with perk := PERK_NONE }) ∧
      ({ game with perk := PERK_NONE } : Game).perk = PERK_NONE ∧
      ({ game with perk := PERK_NONE } : Game).player.perk = game.player.perk := by
  unfold update_perk
  simp [h]

theorem update_perk_expires_field_perk_witness :
    update_perk sample_constants 10 initial_state perk_game =
        some (initial_state, { perk_game with perk := PERK_NONE }) ∧
      ({ perk_game with perk := PERK_NONE } : Game).perk = PERK_NONE ∧
      ({ perk_game with perk := PERK_NONE } : Game).player.perk = perk_game.player.perk :=
  update_perk_expires_field_perk sample_constants 10 initial_state perk_game (by decide)

/-- C14 (as stated, refuted): the player runs left (`speed_x = -4`) and
`COMMAND_LEFT` is processed; `speed_x` is still -4, not 0. -/
theorem process_command_same_direction_keeps_running :
    running_left_game.player.speed_x < 0 ∧
    (process_command sample_constants running_left_game COMMAND_LEFT).player.speed_x = -4 ∧
    (process_command sample_constants running_left_game COMMAND_LEFT).player.speed_x ≠ 0 := by
  decide

/-- C14 (amended): for every player state, pressing the already-active direction
leaves the run as it is (`COMMAND_LEFT` with `speed_x < 0`, or `COMMAND_RIGHT` with
`speed_x > 0`, leaves `speed_x` unchanged); it is pressing the opposite direction
that stops the run (`COMMAND_LEFT` with `speed_x > 0`, or `COMMAND_RIGHT` with
`speed_x < 0`, leaves `speed_x == 0`). -/
theorem process_command_toggle (c : Constants) (game : Game) :
    (game.player.speed_x < 0 →
      (process_command c game COMMAND_LEFT).player.speed_x = game.player.speed_x) ∧
    (game.player.speed_x > 0 →
      (process_command c game COMMAND_RIGHT).player.speed_x = game.player.speed_x) ∧
    (game.player.speed_x > 0 →
      (process_command c game COMMAND_LEFT).player.speed_x = 0) ∧
    (game.player.speed_x < 0 →
      (process_command c game COMMAND_RIGHT).player.speed_x = 0) := by
  refine ⟨?_, ?_, ?_, ?_⟩ <;> intro h
  · have h0 : ¬ (game.player.speed_x = 0) := by omega
    have h1 : ¬ (game.player.speed_x > 0) := by omega
    simp [process_command, h0, h1]
  · have h0 : ¬ (game.player.speed_x = 0) := by omega
    have h1 : ¬ (game.player.speed_x < 0) := by omega
    simp [process_command, h0, h1]
  · have h0 : ¬ (game.player.speed_x = 0) := by omega
    simp [process_command, h0, h]
  · have h0 : ¬ (game.player.speed_x = 0) := by omega
    simp [process_command, h0, h]

theorem process_command_toggle_witness :
    (process_command sample_constants running_left_game COMMAND_LEFT).player.speed_x =
      running_left_game.player.speed_x :=
  (process_command_toggle sample_constants running_left_game).1 (by decide)

/-- C15: with a running speed constant that is not negative, one call of
`process_command` never takes `speed_x` from a positive value to a negative one or
from a negative value to a positive one, for any command; pressing the direction
opposite to the current run sets `speed_x` to exactly 0; and starting from
`speed_x == 0`, `COMMAND_LEFT` followed by `COMMAND_RIGHT`, or `COMMAND_RIGHT`
followed by `COMMAND_LEFT`, ends with `speed_x == 0`. -/
theorem process_command_no_direct_reversal (c : Constants) (game : Game) (command : Command)
    (hrun : 0 ≤ c.PLAYER_RUNNING_SPEED) :
    ¬ (game.player.speed_x > 0 ∧ (process_command c game command).player.speed_x < 0) ∧
    ¬ (game.player.speed_x < 0 ∧ (process_command c game command).player.speed_x > 0) ∧
    (game.player.speed_x > 0 →
      (process_command c game COMMAND_LEFT).player.speed_x = 0) ∧
    (game.player.speed_x < 0 →
      (process_command c game COMMAND_RIGHT).player.speed_x = 0) ∧
    (game.player.speed_x = 0 →
      (process_command c (process_command c game COMMAND_LEFT) COMMAND_RIGHT).player.speed_x
          = 0 ∧
      (process_command c (process_command c game COMMAND_RIGHT) COMMAND_LEFT).player.speed_x
          = 0) := by
  have hjump : ∀ g : Game, (process_jump c g).player.speed_x = g.player.speed_x := by
    intro g
    unfold process_jump
    split
    · rfl
    · split <;> rfl
  have hcases : (process_command c game command).player.speed_x = game.player.speed_x ∨
      (game.player.speed_x = 0 ∧
        ((process_command c game command).player.speed_x = -c.PLAYER_RUNNING_SPEED ∨
         (process_command c game command).player.speed_x = c.PLAYER_RUNNING_SPEED)) ∨
      (process_command c game command).player.speed_x = 0 := by
    cases command
    · left; simp [process_command]
    · by_cases h0 : game.player.speed_x = 0
      · right; left
        exact ⟨h0, Or.inl (by simp [process_command, h0])⟩
      · by_cases h1 : game.player.speed_x > 0
        · right; right; simp [process_command, h0, h1]
        · left; simp [process_command, h0, h1]
    · by_cases h0 : game.player.speed_x = 0
      · right; left
        exact ⟨h0, Or.inr (by simp [process_command, h0])⟩
      · by_cases h1 : game.player.speed_x < 0
        · right; right; simp [process_command, h0, h1]
        · left; simp [process_command, h0, h1]
    · left
      simp only [process_command]
      simp [hjump]
  refine ⟨?_, ?_, ?_, ?_, ?_⟩
  · rintro ⟨h1, h2⟩
    rcases hcases with h | ⟨h, _⟩ | h <;> omega
  · rintro ⟨h1, h2⟩
    rcases hcases with h | ⟨h, _⟩ | h <;> omega
  · intro h
    have h0 : ¬ (game.player.speed_x = 0) := by omega
    simp [process_command, h0, h]
  · intro h
    have h0 : ¬ (game.player.speed_x = 0) := by omega
    simp [process_command, h0, h]
  · intro h
    constructor
    · by_cases hz : c.PLAYER_RUNNING_SPEED = 0
      · simp [process_command, h, hz]
      · have hpos : 0 < c.PLAYER_RUNNING_SPEED := by omega
        have hne : ¬ (-c.PLAYER_RUNNING_SPEED = 0) := by omega
        simp [process_command, h, hne, hz, hpos]
    · by_cases hz : c.PLAYER_RUNNING_SPEED = 0
      · simp [process_command, h, hz]
      · have hpos : 0 < c.PLAYER_RUNNING_SPEED := by omega
        simp [process_command, h, hz, hpos]

theorem process_command_no_direct_reversal_witness :
    (process_command sample_constants
      (process_command sample_constants sample_game COMMAND_LEFT) COMMAND_RIGHT).player.speed_x
        = 0 :=
  ((process_command_no_direct_reversal sample_constants sample_game COMMAND_NONE
    (by decide)).2.2.2.2 (by decide)).1

/-- C16 (as stated, refuted): the player is in the air (not standing on a platform),
may double jump, has 2 rows of jump left and holds super-jump; the base height is 4.
After `process_jump` the remaining height is `(2 + 4 / 2) * 2 = 8`, not
`2 + 2 * (4 / 2) = 6`. -/
theorem process_jump_doubles_whole_height :
    (is_standing_on_platform airborne_game = false ∧
      airborne_game.player.can_double_jump ≠ 0 ∧
      airborne_game.player.remaining_jump_height = 2 ∧
      airborne_game.player.perk = PERK_POWER_SUPER_JUMP ∧
      sample_constants.PLAYER_JUMPING_HEIGHT = 4) ∧
    (process_jump sample_constants airborne_game).player.remaining_jump_height = 8 ∧
    (process_jump sample_constants airborne_game).player.remaining_jump_height ≠
      2 + 2 * Int.tdiv 4 2 := by
  decide

/-- C16 (amended): in every game in which the player is not standing on a platform
and `can_double_jump` is set, with remaining jump height `r`, `process_jump` clears
`can_double_jump` and adds half the base height to `r`; under super-jump the whole
sum is doubled: the new `remaining_jump_height` is `r + PLAYER_JUMPING_HEIGHT / 2`
when super-jump is not held and `(r + PLAYER_JUMPING_HEIGHT / 2) * 2` when it is. -/
theorem process_jump_double_jump (c : Constants) (game : Game)
    (hstand : is_standing_on_platform game = false)
    (hdouble : game.player.can_double_jump ≠ 0) :
    (process_jump c game).player.can_double_jump = 0 ∧
    (game.player.perk ≠ PERK_POWER_SUPER_JUMP →
      (process_jump c game).player.remaining_jump_height =
        game.player.remaining_jump_height + Int.tdiv c.PLAYER_JUMPING_HEIGHT 2) ∧
    (game.player.perk = PERK_POWER_SUPER_JUMP →
      (process_jump c game).player.remaining_jump_height =
        (game.player.remaining_jump_height + Int.tdiv c.PLAYER_JUMPING_HEIGHT 2) * 2) := by
  refine ⟨?_, ?_, ?_⟩
  · simp [process_jump, hstand, hdouble]
  · intro h
    simp [process_jump, hstand, hdouble, h]
  · intro h
    simp [process_jump, hstand, hdouble, h]

theorem process_jump_double_jump_witness :
    (process_jump sample_constants airborne_game).player.can_double_jump = 0 ∧
      (process_jump sample_constants airborne_game).player.remaining_jump_height =
        (airborne_game.player.remaining_jump_height +
          Int.tdiv sample_constants.PLAYER_JUMPING_HEIGHT 2) * 2 :=
  have h := process_jump_double_jump sample_constants airborne_game (by decide) (by decide)
  ⟨h.1, h.2.2 (by decide)⟩

/-- C17: for every game and target cell `(x, y)`, `is_valid_move` returns false if and
only if either the player holds invincibility and the cell is just outside a box edge
(`x == min_x - 1`, `x == max_x + 1`, `y == min_y - 1` or `y == max_y + 1`), or the
target is not the cell directly above the player and lies inside some platform; in
particular, for the cell directly above the player only the first reason remains. -/
theorem is_valid_move_false_iff (game : Game) (x y : Int) :
    (is_valid_move game x y = false ↔
      (game.player.perk = PERK_POWER_INVINCIBILITY ∧
        (x = game.box.min_x - 1 ∨ x = game.box.max_x + 1 ∨
          y = game.box.min_y - 1 ∨ y = game.box.max_y + 1)) ∨
      (¬ (x = game.player.x ∧ y = game.player.y - 1) ∧
        ∃ platform ∈ game.platforms, is_within_platform x y platform = true)) ∧
    (x = game.player.x ∧ y = game.player.y - 1 →
      (is_valid_move game x y = false ↔
        game.player.perk = PERK_POWER_INVINCIBILITY ∧
          (x = game.box.min_x - 1 ∨ x = game.box.max_x + 1 ∨
            y = game.box.min_y - 1 ∨ y = game.box.max_y + 1))) := by
  have hwall : ((game.box.min_x - 1 = x ∨ game.box.max_x + 1 = x) ∨
      (game.box.min_y - 1 = y ∨ game.box.max_y + 1 = y)) ↔
      (x = game.box.min_x - 1 ∨ x = game.box.max_x + 1 ∨
        y = game.box.min_y - 1 ∨ y = game.box.max_y + 1) := by
    constructor
    · rintro ((h | h) | (h | h))
      · exact Or.inl h.symm
      · exact Or.inr (Or.inl h.symm)
      · exact Or.inr (Or.inr (Or.inl h.symm))
      · exact Or.inr (Or.inr (Or.inr h.symm))
    · rintro (h | h | h | h)
      · exact Or.inl (Or.inl h.symm)
      · exact Or.inl (Or.inr h.symm)
      · exact Or.inr (Or.inl h.symm)
      · exact Or.inr (Or.inr h.symm)
  have habove : (game.player.x ≠ x ∨ game.player.y ≠ y + 1) ↔
      ¬ (x = game.player.x ∧ y = game.player.y - 1) := by
    constructor
    · rintro h ⟨h1, h2⟩
      rcases h with h | h
      · exact h h1.symm
      · exact h (by omega)
    · intro h
      by_cases h1 : game.player.x = x
      · right
        intro h2
        exact h ⟨h1.symm, by omega⟩
      · exact Or.inl h1
  have hmain : is_valid_move game x y = false ↔
      (game.player.perk = PERK_POWER_INVINCIBILITY ∧
        (x = game.box.min_x - 1 ∨ x = game.box.max_x + 1 ∨
          y = game.box.min_y - 1 ∨ y = game.box.max_y + 1)) ∨
      (¬ (x = game.player.x ∧ y = game.player.y - 1) ∧
        ∃ platform ∈ game.platforms, is_within_platform x y platform = true) := by
    unfold is_valid_move
    by_cases h1 : game.player.perk = PERK_POWER_INVINCIBILITY ∧
        ((game.box.min_x - 1 = x ∨ game.box.max_x + 1 = x) ∨
          (game.box.min_y - 1 = y ∨ game.box.max_y + 1 = y))
    · rw [if_pos h1]
      simp only [true_iff]
      exact Or.inl ⟨h1.1, hwall.mp h1.2⟩
    · rw [if_neg h1]
      by_cases h2 : game.player.x ≠ x ∨ game.player.y ≠ y + 1
      · rw [if_pos h2]
        constructor
        · intro h
          have hany : game.platforms.any (fun platform => is_within_platform x y platform)
              = true := by simpa using h
          exact Or.inr ⟨habove.mp h2, List.any_eq_true.mp hany⟩
        · rintro (h | ⟨_, h⟩)
          · exact absurd ⟨h.1, hwall.mpr h.2⟩ h1
          · have hany := List.any_eq_true.mpr h
            simp [hany]
      · rw [if_neg h2]
        constructor
        · intro h
          exact Bool.noConfusion h
        · rintro (h | ⟨h, _⟩)
          · exact absurd ⟨h.1, hwall.mpr h.2⟩ h1
          · exact absurd (habove.mpr h) h2
  refine ⟨hmain, ?_⟩
  intro h
  rw [hmain]
  constructor
  · rintro (h1 | ⟨h1, _⟩)
    · exact h1
    · exact absurd h h1
  · exact fun h1 => Or.inl h1

/-- C18: in every game in which the player holds invincibility and is inside the
bounding box, for every requested displacement `(dx, dy)`, after
`move_player(game, dx, dy)` the player is still inside the bounding box and its
position differs from the old one by at most one cell on each axis. -/
theorem move_player_invincible_stays_in_box (game : Game) (dx dy : Int)
    (hperk : game.player.perk = PERK_POWER_INVINCIBILITY)
    (hin : game.box.min_x ≤ game.player.x ∧ game.player.x ≤ game.box.max_x ∧
      game.box.min_y ≤ game.player.y ∧ game.player.y ≤ game.box.max_y) :
    ((move_player game dx dy).box.min_x ≤ (move_player game dx dy).player.x ∧
      (move_player game dx dy).player.x ≤ (move_player game dx dy).box.max_x ∧
      (move_player game dx dy).box.min_y ≤ (move_player game dx dy).player.y ∧
      (move_player game dx dy).player.y ≤ (move_player game dx dy).box.max_y) ∧
    |(move_player game dx dy).player.x - game.player.x| ≤ 1 ∧
    |(move_player game dx dy).player.y - game.player.y| ≤ 1 := by
  have hnx : normalize dx = -1 ∨ normalize dx = 0 ∨ normalize dx = 1 := by
    unfold normalize
    split
    · exact Or.inl rfl
    · split
      · exact Or.inr (Or.inl rfl)
      · exact Or.inr (Or.inr rfl)
  have hny : normalize dy = -1 ∨ normalize dy = 0 ∨ normalize dy = 1 := by
    unfold normalize
    split
    · exact Or.inl rfl
    · split
      · exact Or.inr (Or.inl rfl)
      · exact Or.inr (Or.inr rfl)
  unfold move_player
  dsimp only
  by_cases hv : is_valid_move game (game.player.x + normalize dx)
      (game.player.y + normalize dy) = true
  · simp only [hv, if_true]
    have hwalls : ¬ ((game.box.min_x - 1 = game.player.x + normalize dx ∨
        game.box.max_x + 1 = game.player.x + normalize dx) ∨
        (game.box.min_y - 1 = game.player.y + normalize dy ∨
        game.box.max_y + 1 = game.player.y + normalize dy)) := by
      intro hw
      unfold is_valid_move at hv
      simp [hperk, hw] at hv
    refine ⟨⟨?_, ?_, ?_, ?_⟩, ?_, ?_⟩
    · omega
    · omega
    · omega
    · omega
    · rw [abs_le]; omega
    · rw [abs_le]; omega
  · simp only [hv, if_false]
    refine ⟨hin, ?_, ?_⟩ <;> simp

theorem move_player_invincible_stays_in_box_witness :
    ((move_player invincible_game 7 0).box.min_x ≤ (move_player invincible_game 7 0).player.x ∧
      (move_player invincible_game 7 0).player.x ≤ (move_player invincible_game 7 0).box.max_x ∧
      (move_player invincible_game 7 0).box.min_y ≤ (move_player invincible_game 7 0).player.y ∧
      (move_player invincible_game 7 0).player.y ≤
        (move_player invincible_game 7 0).box.max_y) ∧
    |(move_player invincible_game 7 0).player.x - invincible_game.player.x| ≤ 1 ∧
    |(move_player invincible_game 7 0).player.y - invincible_game.player.y| ≤ 1 :=
  move_player_invincible_stays_in_box invincible_game 7 0 (by decide) (by decide)

/-- C20: in every game in which the player holds the time-stop power,
`update_platforms` returns and changes nothing: the game, with every platform's
position and the player's position, and the generator state are as before, on every
frame. -/
theorem update_platforms_time_stop (c : Constants) (fuel : Nat) (s : RandomState)
    (game : Game) (h : game.player.perk = PERK_POWER_TIME_STOP) :
    update_platforms c fuel s game = some (s, game) := by
  unfold update_platforms
  simp [h]

theorem update_platforms_time_stop_witness :
    update_platforms sample_constants 10 initial_state frozen_game =
      some (initial_state, frozen_game) :=
  update_platforms_time_stop sample_constants 10 initial_state frozen_game (by decide)

/-- C22 (the code at the failing input): the box `[0, 10] × [0, 10]` is valid, its
height 11 is at most `LINES - 2 = 22`, and the only platform is on row 0, inside the
box, moving up. At frame 30 the motion step of `update_platform` puts it on row -1,
`is_out_of_bounding_box` is 2, so `reposition` is reached, and the first loop writes
the table at index `-1 - 0 = -1`, outside `[0, LINES - 2)`. -/
theorem reposition_writes_outside_table :
    (rising_game.box.min_x ≤ rising_game.box.max_x ∧
      rising_game.box.min_y ≤ rising_game.box.max_y ∧
      rising_game.box.max_y - rising_game.box.min_y + 1 ≤ sample_constants.LINES - 2 ∧
      ∀ platform ∈ rising_game.platforms,
        rising_game.box.min_y ≤ platform.y ∧ platform.y ≤ rising_game.box.max_y) ∧
    (move_platform_horizontally sample_constants rising_game 0).bind
      (fun game => move_platform_vertically sample_constants game 0) = some risen_game ∧
    risen_game.platforms.map (fun platform => is_out_of_bounding_box platform risen_game.box)
      = [2] ∧
    occupied_write_indices risen_game = [-1] ∧
    ¬ ((0 : Int) ≤ -1 ∧ (-1 : Int) < sample_constants.LINES - 2) ∧
    build_occupied risen_game.box.min_y risen_game.platforms
      (List.replicate (sample_constants.LINES - 2).toNat false) = none ∧
    update_platform sample_constants 10 initial_state rising_game 0 = none := by
  decide

/-- C23: in every game, on every frame, if the player is standing
(`is_standing_on_platform` is true, over a platform or, holding invincibility, on the
box's bottom row) and is not jumping (`remaining_jump_height == 0`), then every result
of `update_player_vertical_position` is the game as it was, the player's position
included; and the function returns when the falling speed and its half are at most
`2 * FPS` in magnitude. -/
theorem update_player_vertical_position_standing (c : Constants) (game : Game)
    (hstand : is_standing_on_platform game = true)
    (hjump : game.player.remaining_jump_height = 0) :
    (∀ game', update_player_vertical_position c game = some game' →
      game' = game ∧ game'.player.x = game.player.x ∧ game'.player.y = game.player.y) ∧
    (c.PLAYER_FALLING_SPEED.natAbs ≤ 2 * c.FPS ∧
        (Int.tdiv c.PLAYER_FALLING_SPEED 2).natAbs ≤ 2 * c.FPS →
      update_player_vertical_position c game = some game) := by
  have hnj : is_jumping game.player = false := by
    unfold is_jumping
    rw [hjump]
    decide
  have hblocked : is_falling game.player game.platforms = true →
      move_player game 0 1 = game := by
    intro hfall
    unfold is_standing_on_platform at hstand
    split at hstand
    · rename_i hinv
      exact move_player_down_blocked game hinv.1 hinv.2
    · rw [not_falling_of_over_platform game.player game.platforms hstand] at hfall
      exact Bool.noConfusion hfall
  have hres : ∀ game', update_player_vertical_position c game = some game' → game' = game := by
    intro game' h
    unfold update_player_vertical_position at h
    rw [hnj] at h
    simp only [Bool.false_eq_true, if_false] at h
    split at h
    · rename_i hfall
      split at h
      · exact Option.noConfusion h
      · cases h; rfl
      · rw [hblocked hfall] at h
        cases h; rfl
    · cases h; rfl
  constructor
  · intro game' h
    have := hres game' h
    subst this
    exact ⟨rfl, rfl, rfl⟩
  · rintro ⟨hf, hh⟩
    unfold update_player_vertical_position
    rw [hnj]
    simp only [Bool.false_eq_true, if_false]
    split
    · rename_i hfall
      have hv : (if game.player.perk = PERK_POWER_LOW_GRAVITY then
          Int.tdiv c.PLAYER_FALLING_SPEED 2 else c.PLAYER_FALLING_SPEED).natAbs ≤ 2 * c.FPS := by
        split
        · exact hh
        · exact hf
      obtain ⟨b, hb⟩ := should_move_at_current_frame_some c game _ hv
      rw [hb]
      cases b
      · rfl
      · simp only [hblocked hfall]
    · rfl

theorem update_player_vertical_position_standing_witness :
    update_player_vertical_position sample_constants grounded_game = some grounded_game :=
  (update_player_vertical_position_standing sample_constants grounded_game
    (by decide) (by decide)).2 (by decide)

end WallsOfDoom
